import Mathlib

set_option maxHeartbeats 1000000

/-!
Verification of the incremental scope-tree builder of
`lib/AST/ASTScopeCreation.cpp`.

The builder walks the declarations, statements and expressions of a
source file and produces a tree of lexical scopes.  We embed the
algorithm shallowly:

* the scope tree lives in an arena (`St.nodes`), each `Scope` holding a
  kind tag (`SKind`, mirroring the `ASTScopeImpl` subclass and its
  payload references by identity), a parent index and an ordered list
  of child indices;
* the duplicate set `astDuplicates` and the injection-point cursor
  `newNodeInjectionPoint` of `ScopeCreator` are explicit state;
* every creation/expansion function of the C++ file becomes a
  state-passing function; `createSubtree<K>` becomes the corresponding
  `create...Scope` function, which allocates the node, links it and runs
  the kind's expansion, returning what `expandMe` returns
  (for `CREATES_NEW_INSERTION_POINT` kinds the designated continuation,
  for `NO_NEW_INSERTION_POINT` / `NO_EXPANSION` kinds the parent);
* pointer identities of syntax nodes become `Nat` ids.

Source ranges and their caches are computed outside this file in the
original code; they are modelled from the spec as the derived function
`scopeRange` (see its doc comment).
-/

namespace ScopeTree

/-- A source range; `none` models an invalid range, `some (s, e)` a
valid range with start and end positions. -/
abbrev SrcRange := Option (Nat × Nat)

/-- `d->getStartLoc() == d->getEndLoc()`.  For an invalid range the two
null locations also compare equal. -/
def startEndEqual : SrcRange → Bool
  | none => true
  | some (a, b) => a == b

/-- A `VarDecl` as the builder consumes it: its identity, whether it is
compiler-synthesized, whether `getBracesRange().isValid()` (it has
explicit accessors), and whether
`AttachedPropertyWrapperScope::getCustomAttributesSourceRange(vd).isValid()`
(a query on the syntax-tree collaborator, carried here as a flag). -/
structure VarInfo where
  id : Nat
  implicit : Bool
  bracesValid : Bool
  hasCustomAttr : Bool
deriving DecidableEq, Repr

/-- A `SpecializeAttr`: identity and source location (for
`isBeforeInBuffer` ordering). -/
structure SpecAttr where
  id : Nat
  loc : Nat
deriving DecidableEq, Repr

/-- `DeclVisibilityKind` as used by `visitPatternBindingDecl`. -/
inductive Vis where
  | memberOfCurrentNominal
  | localVariable
deriving DecidableEq, Repr

mutual

/-- Declarations, restricted to the kinds the analysed creation paths
distinguish.  `otherDecl` stands for the remaining `VISIT_AND_IGNORE`
declaration kinds (imports, operator declarations, ...). -/
inductive Decl where
  | patternBinding (id : Nat) (range : SrcRange) (implicit : Bool)
      (entries : List PatternEntry)
  | nominal (id : Nat) (range : SrcRange) (implicit : Bool)
      (generics : List Nat) (trailingWhere : Bool)
      (shouldHaveBody : Bool) (hasBody : Bool) (members : List Decl)
  | extensionD (id : Nat) (range : SrcRange) (implicit : Bool)
      (generics : List Nat) (trailingWhere : Bool)
      (shouldHaveBody : Bool) (hasBody : Bool) (members : List Decl)
  | funcD (id : Nat) (range : SrcRange) (implicit : Bool)
      (specAttrs : List SpecAttr) (generics : List Nat)
      (paramListId : Nat) (params : List ParamSpec)
      (body : Option Stmt) (inTypeContext : Bool) (isAccessor : Bool)
  | topLevelCode (id : Nat) (range : SrcRange) (implicit : Bool) (body : Stmt)
  | varD (range : SrcRange) (implicit : Bool) (v : VarInfo)
  | otherDecl (id : Nat) (range : SrcRange) (implicit : Bool)

/-- A function parameter: identity and optional default-value
expression. -/
inductive ParamSpec where
  | mk (id : Nat) (defaultValue : Option Expr)

/-- One entry of a pattern binding: the initializer as written (if any)
and the variables bound by the pattern. -/
inductive PatternEntry where
  | mk (initAsWritten : Option Expr) (vars : List VarInfo)

/-- A `StmtConditionElement`. -/
inductive CondElt where
  | availability
  | boolean (e : Expr)
  | patternCond (patId : Nat) (initE : Expr)

/-- Statements, restricted to the kinds the analysed creation paths
distinguish; `otherStmt` stands for the `VISIT_AND_IGNORE` statement
kinds (break, continue, ...). -/
inductive Stmt where
  | brace (id : Nat) (range : SrcRange) (implicit : Bool)
      (elements : List ASTNode)
  | guardS (id : Nat) (range : SrcRange) (implicit : Bool)
      (cond : List CondElt) (body : Stmt) (endLoc : Nat)
  | otherStmt (id : Nat) (range : SrcRange) (implicit : Bool)

/-- A `ClosureExpr`: identity, range, whether `getInLoc().isValid()`
(explicit parameter clause with `in`), and its brace body. -/
inductive ClosureInfo where
  | mk (id : Nat) (range : SrcRange) (inLocValid : Bool) (body : Stmt)

/-- Expressions: a closure, a capture list wrapping a closure (with the
initializer expressions of its capture entries, one list per entry of
each capture's pattern binding), or any other expression together with
the children its AST walk would visit. -/
inductive Expr where
  | closureE (c : ClosureInfo)
  | captureListE (id : Nat) (range : SrcRange)
      (captureInits : List (List Expr)) (closureBody : ClosureInfo)
  | otherE (id : Nat) (range : SrcRange) (implicit : Bool)
      (children : List WalkChild)

/-- A child slot of an expression as seen by an `ASTWalker`: a
sub-expression, a sub-statement, a nested declaration, a pattern, a
type representation or a parameter list. -/
inductive WalkChild where
  | ex (e : Expr)
  | st (s : Stmt)
  | dec (d : Decl)
  | pat (id : Nat)
  | typeRep (id : Nat)
  | paramList (id : Nat)

/-- `ASTNode`: a declaration, statement or expression. -/
inductive ASTNode where
  | decl (d : Decl)
  | stmt (s : Stmt)
  | expr (e : Expr)

end

/-- The opaque identity (`getOpaqueValue`) of a node. -/
def Decl.declId : Decl → Nat
  | .patternBinding id .. => id
  | .nominal id .. => id
  | .extensionD id .. => id
  | .funcD id .. => id
  | .topLevelCode id .. => id
  | .varD _ _ v => v.id
  | .otherDecl id .. => id

def Decl.declRange : Decl → SrcRange
  | .patternBinding _ r .. => r
  | .nominal _ r .. => r
  | .extensionD _ r .. => r
  | .funcD _ r .. => r
  | .topLevelCode _ r .. => r
  | .varD r _ _ => r
  | .otherDecl _ r _ => r

def Decl.isImplicit : Decl → Bool
  | .patternBinding _ _ i _ => i
  | .nominal _ _ i .. => i
  | .extensionD _ _ i .. => i
  | .funcD _ _ i .. => i
  | .topLevelCode _ _ i _ => i
  | .varD _ i _ => i
  | .otherDecl _ _ i => i

def Decl.isPatternBinding : Decl → Bool
  | .patternBinding .. => true
  | _ => false

def Stmt.stmtId : Stmt → Nat
  | .brace id .. => id
  | .guardS id .. => id
  | .otherStmt id .. => id

def Stmt.stmtRange : Stmt → SrcRange
  | .brace _ r .. => r
  | .guardS _ r .. => r
  | .otherStmt _ r _ => r

def ClosureInfo.cid : ClosureInfo → Nat
  | .mk id .. => id

def ClosureInfo.crange : ClosureInfo → SrcRange
  | .mk _ r .. => r

def ClosureInfo.inLocValid : ClosureInfo → Bool
  | .mk _ _ v _ => v

def ClosureInfo.body : ClosureInfo → Stmt
  | .mk _ _ _ b => b

def Expr.exprId : Expr → Nat
  | .closureE c => c.cid
  | .captureListE id .. => id
  | .otherE id .. => id

def Expr.exprRange : Expr → SrcRange
  | .closureE c => c.crange
  | .captureListE _ r .. => r
  | .otherE _ r .. => r

def ASTNode.nodeId : ASTNode → Nat
  | .decl d => d.declId
  | .stmt s => s.stmtId
  | .expr e => e.exprId

def PatternEntry.initAsWritten : PatternEntry → Option Expr
  | .mk i _ => i

def PatternEntry.vars : PatternEntry → List VarInfo
  | .mk _ v => v

/-- Which portion of a `GenericTypeOrExtensionScope` a node represents
(`GenericTypeOrExtensionWholePortion`,
`GenericTypeOrExtensionWherePortion`, `IterableTypeBodyPortion`). -/
inductive Portion where
  | whole
  | wherePortion
  | iterableBody
deriving DecidableEq, Repr

/-- The scope-node ontology: the `ASTScopeImpl` subclass of a node
together with the identities of the syntax nodes it was built from and
its kind-specific auxiliary data. -/
inductive SKind where
  | sourceFile
  | braceStmtScope (stmtId : Nat)
  | topLevelCodeScope (declId : Nat)
  | patternEntryDeclScope (declId : Nat) (entry : Nat) (vis : Vis)
  | patternEntryInitializerScope (declId : Nat) (entry : Nat) (vis : Vis)
  | patternEntryUseScope (declId : Nat) (entry : Nat) (vis : Vis)
      (initEnd : Option Nat)
  | conditionalClauseScope (stmtId : Nat) (index : Nat)
  | conditionalClauseUseScope (lookupParent : Nat) (endLoc : Nat)
  | statementConditionElementPatternScope (patId : Nat)
  | guardStmtScope (stmtId : Nat)
  | abstractFunctionDeclScope (declId : Nat)
  | abstractFunctionParamsScope (paramListId : Nat)
  | defaultArgumentInitScope (paramId : Nat)
  | methodBodyScope (declId : Nat)
  | pureFunctionBodyScope (declId : Nat)
  | genericParamScope (declId : Nat) (index : Nat)
  | specializeAttributeScope (attrId : Nat) (declId : Nat)
  | attachedPropertyWrapperScope (varId : Nat)
  | nominalTypeScope (portion : Portion) (declId : Nat)
  | extensionScope (portion : Portion) (declId : Nat)
  | wholeClosureScope (captureId : Option Nat) (closureId : Nat)
  | captureListScope (exprId : Nat)
  | closureParametersScope (closureId : Nat)
  | closureBodyScope (closureId : Nat)
  | varDeclScope (varId : Nat)
deriving DecidableEq, Repr

/-- `ASTScopeImpl::isATypeDeclScope()`: the scope's decl is a
`NominalTypeDecl` or an `ExtensionDecl`. -/
def isATypeDeclScope : SKind → Bool
  | .nominalTypeScope .. => true
  | .extensionScope .. => true
  | _ => false

/-- One scope node of the arena.  `ownRange` and `widened` feed the
spec-modelled derived range (`scopeRange`): `ownRange` is the range of
the construct the scope was built from, `widened` collects the ranges
passed to `widenSourceRangeForIgnoredASTNode`.  `scep` is
`ConditionalClauseScope::statementConditionElementPatternScope`. -/
structure Scope where
  kind : SKind
  parent : Option Nat
  children : List Nat
  ownRange : SrcRange
  widened : List SrcRange
  scep : Option Nat
deriving DecidableEq, Repr

instance : Inhabited Scope :=
  ⟨{ kind := .sourceFile, parent := none, children := [], ownRange := none,
     widened := [], scep := none }⟩

/-- The mutable state of scope-tree construction: the arena of scope
nodes (index 0 is the `ASTSourceFileScope`), the `astDuplicates` set
(as an insertion-ordered list of identities), a ghost log recording, in
order, every identity whose insertion into the duplicate set succeeded
(used to state the deduplication invariant; it influences nothing), and
`newNodeInjectionPoint`. -/
structure St where
  nodes : List Scope
  dups : List Nat
  scopedLog : List Nat
  inj : Nat
deriving DecidableEq, Repr

/-- Read a node of the arena (out-of-range reads yield the default
scope; the algorithm only ever reads live indices). -/
def getNode (st : St) (i : Nat) : Scope := st.nodes.getD i default

/-- Replace node `i` by `f` applied to it (no-op out of range). -/
def setNode (st : St) (i : Nat) (f : Scope → Scope) : St :=
  { st with nodes := st.nodes.set i (f (getNode st i)) }

/-- `ASTScopeImpl::addChild` fused with `constructInContext`: allocate
a node of kind `k` and own-range `ownR`, append it as the last child of
`parentIdx` and set its parent back-reference.  Returns the new index. -/
def addChild (parentIdx : Nat) (k : SKind) (ownR : SrcRange) (st : St) :
    Nat × St :=
  let idx := st.nodes.length
  let fresh : Scope :=
    { kind := k, parent := some parentIdx, children := [], ownRange := ownR,
      widened := [], scep := none }
  let st1 : St := setNode st parentIdx fun sc => { sc with children := sc.children ++ [idx] }
  (idx, { st1 with nodes := st1.nodes ++ [fresh] })

/-- `widenSourceRangeForIgnoredASTNode`.  Modelled from the spec: the
widen-range operation extends the node's cached range to cover the
ignored construct; we record the construct's range, and `scopeRange`
folds it into the derived range. -/
def widenAt (i : Nat) (r : SrcRange) (st : St) : St :=
  setNode st i fun sc => { sc with widened := sc.widened ++ [r] }

/-- `astDuplicates.insert(id).second`: `true` iff `id` was not yet
present.  A successful insertion is also recorded in the ghost log. -/
def registerIfNew (id : Nat) (st : St) : Bool × St :=
  if id ∈ st.dups then (false, st)
  else (true, { st with dups := id :: st.dups, scopedLog := id :: st.scopedLog })

/-- `ScopeCreator::isDuplicate(p, registerDuplicate)`. -/
def isDuplicate (p : Nat) (registerDuplicate : Bool) (st : St) : Bool × St :=
  if registerDuplicate then
    let r := registerIfNew p st
    (!r.1, r.2)
  else (decide (p ∈ st.dups), st)

/-- `PatternEntryDeclScope::isHandledSpecially`: `VarDecl`s (and
accessors) are scoped by the pattern code, not when encountered. -/
def isHandledSpecially : ASTNode → Bool
  | .decl (.varD ..) => true
  | _ => false

/-- `ScopeCreator::shouldThisNodeBeScopedWhenEncountered`. -/
def shouldThisNodeBeScopedWhenEncountered (n : ASTNode) (st : St) :
    Bool × St :=
  if isHandledSpecially n then (false, st)
  else registerIfNew n.nodeId st

/-- `ScopeCreator::shouldCreateScope`.  Statements and expressions are
always candidates (an implicit return can contain closures);
declarations are dropped when implicit, and pattern bindings also when
their start and end locations coincide. -/
def shouldCreateScope : Option ASTNode → Bool
  | none => false
  | some (.stmt _) => true
  | some (.expr _) => true
  | some (.decl d) =>
    if d.isImplicit then false
    else if d.isPatternBinding && startEndEqual d.declRange then false
    else true

/-- Union of ranges ignoring invalid ones. -/
def hull : SrcRange → SrcRange → SrcRange
  | none, r => r
  | some ab, none => some ab
  | some (a, b), some (c, d) => some (min a c, max b d)

def hullList (l : List SrcRange) : SrcRange := l.foldr hull none

/-- Fueled derived source range of a scope node (see `scopeRange`). -/
def scopeRangeGo (st : St) : Nat → Nat → SrcRange
  | 0, _ => none
  | fuel + 1, i =>
    let sc := getNode st i
    hullList (sc.ownRange :: (sc.widened ++ sc.children.map (scopeRangeGo st fuel)))

/-- The source range of a scope node.  Modelled from the spec: the
source-range caching and recomputation functions
(`cacheSourceRange(sOfSlice)`, `clearCachedSourceRangesOfMeAndAncestors`,
`getSourceRange`) live outside this file; per the spec a node's cached
range is the `(start, end)` hull covering the constructs it was built
from, every range widened onto it, and every descendant, recomputed
bottom-up after each batch of insertions, so we model the cache by its
recomputed value. -/
def scopeRange (st : St) (i : Nat) : SrcRange :=
  scopeRangeGo st st.nodes.length i

/-- `getSourceRange().End` as an optional position. -/
def scopeRangeEnd (st : St) (i : Nat) : Option Nat :=
  (scopeRange st i).map (·.2)

/-- The payload of a `CaptureListExpr` as the closure finder reports
it: its identity and the initializer expressions of its capture
entries. -/
structure CapData where
  id : Nat
  captures : List (List Expr)

/-- What `forEachClosureIn`'s callback receives: the optional enclosing
capture list and the closure. -/
abbrev FoundClosure := Option CapData × ClosureInfo

mutual

/-- `ScopeCreator::forEachClosureIn`, reified as the list of callback
invocations of its `ClosureFinder` walker, in visit order.
`walkToExprPre` reports a `ClosureExpr` (without its capture list) or a
`CaptureListExpr` (with it) and does not descend into either. -/
def forEachClosureIn : Expr → List FoundClosure
  | .closureE c => [(none, c)]
  | .captureListE id _ inits cb => [(some ⟨id, inits⟩, cb)]
  | .otherE _ _ _ children => closuresInChildren children

/-- Walk a list of expression children: the walker descends into
sub-expressions and sub-statements, and refuses to walk into nested
declarations (`walkToDeclPre`), patterns (`walkToPatternPre`), type
representations (`walkToTypeReprPre` / `walkToTypeLocPre`) and
parameter lists (`walkToParameterListPre`). -/
def closuresInChildren : List WalkChild → List FoundClosure
  | [] => []
  | .ex e :: rest => forEachClosureIn e ++ closuresInChildren rest
  | .st s :: rest => closuresInStmt s ++ closuresInChildren rest
  | .dec _ :: rest => closuresInChildren rest
  | .pat _ :: rest => closuresInChildren rest
  | .typeRep _ :: rest => closuresInChildren rest
  | .paramList _ :: rest => closuresInChildren rest

/-- `walkToStmtPre`: only brace statements are walked into (closures
hidden in there); every other statement is skipped. -/
def closuresInStmt : Stmt → List FoundClosure
  | .brace _ _ _ elements => closuresInElements elements
  | .guardS .. => []
  | .otherStmt .. => []

/-- Walk the elements of a brace statement: expression and statement
elements are walked, declaration elements are not (`walkToDeclPre`
returns false). -/
def closuresInElements : List ASTNode → List FoundClosure
  | [] => []
  | .expr e :: rest => forEachClosureIn e ++ closuresInElements rest
  | .stmt s :: rest => closuresInStmt s ++ closuresInElements rest
  | .decl _ :: rest => closuresInElements rest

end

/-! ### Computable size measures

`sizeOf` of the mutual syntax inductives has no executable code, so the
termination measures of the builder are stated with the following
hand-rolled size functions. -/

mutual

def Expr.msize : Expr → Nat
  | .closureE c => 1 + c.msize
  | .captureListE _ _ inits cb => 1 + msizeLL inits + cb.msize
  | .otherE _ _ _ children => 1 + msizeChildren children

def ClosureInfo.msize : ClosureInfo → Nat
  | .mk _ _ _ b => 1 + b.msize

def Stmt.msize : Stmt → Nat
  | .brace _ _ _ elements => 1 + msizeElements elements
  | .guardS _ _ _ cond body _ => 2 + msizeConds cond + body.msize
  | .otherStmt .. => 1

def Decl.msize : Decl → Nat
  | .patternBinding _ _ _ entries => 1 + msizeEntries entries
  | .nominal _ _ _ _ _ _ _ members => 1 + msizeDecls members
  | .extensionD _ _ _ _ _ _ _ members => 1 + msizeDecls members
  | .funcD _ _ _ _ _ _ params body _ _ => 1 + msizeParams params + msizeOptStmt body
  | .topLevelCode _ _ _ body => 1 + body.msize
  | .varD .. => 1
  | .otherDecl .. => 1

def msizeOptStmt : Option Stmt → Nat
  | none => 1
  | some s => 1 + s.msize

def msizeParams : List ParamSpec → Nat
  | [] => 1
  | p :: rest => 1 + msizeParam p + msizeParams rest

def msizeParam : ParamSpec → Nat
  | .mk _ none => 1
  | .mk _ (some e) => 1 + e.msize

def msizeEntries : List PatternEntry → Nat
  | [] => 1
  | e :: rest => 1 + msizeEntry e + msizeEntries rest

def msizeEntry : PatternEntry → Nat
  | .mk none _ => 1
  | .mk (some i) _ => 1 + i.msize

def msizeConds : List CondElt → Nat
  | [] => 1
  | c :: rest => 1 + msizeCond c + msizeConds rest

def msizeCond : CondElt → Nat
  | .availability => 1
  | .boolean e => 1 + e.msize
  | .patternCond _ i => 1 + i.msize

def msizeChildren : List WalkChild → Nat
  | [] => 1
  | .ex e :: rest => 1 + e.msize + msizeChildren rest
  | .st s :: rest => 1 + s.msize + msizeChildren rest
  | .dec _ :: rest => 1 + msizeChildren rest
  | .pat _ :: rest => 1 + msizeChildren rest
  | .typeRep _ :: rest => 1 + msizeChildren rest
  | .paramList _ :: rest => 1 + msizeChildren rest

def msizeElements : List ASTNode → Nat
  | [] => 1
  | n :: rest => 1 + msizeNode n + msizeElements rest

def msizeNode : ASTNode → Nat
  | .decl d => 1 + d.msize
  | .stmt s => 1 + s.msize
  | .expr e => 1 + e.msize

def msizeDecls : List Decl → Nat
  | [] => 1
  | d :: rest => 2 + d.msize + msizeDecls rest

def msizeLL : List (List Expr) → Nat
  | [] => 1
  | l :: rest => 1 + msizeL l + msizeLL rest

def msizeL : List Expr → Nat
  | [] => 1
  | e :: rest => 1 + e.msize + msizeL rest

end

/-- Size of a reported closure payload, for termination of the
builder's recursion into reported closures. -/
def psize : FoundClosure → Nat
  | (none, c) => c.msize
  | (some cd, c) => msizeLL cd.captures + c.msize

def sumPsize (l : List FoundClosure) : Nat :=
  l.foldr (fun pr acc => psize pr + 1 + acc) 0

theorem sumPsize_append (a b : List FoundClosure) :
    sumPsize (a ++ b) = sumPsize a + sumPsize b := by
  induction a with
  | nil => simp [sumPsize]
  | cons x xs ih => simp [sumPsize] at ih ⊢; omega

mutual

theorem msize_pos_expr (e : Expr) : 1 ≤ e.msize := by
  match e with
  | .closureE c => simp [Expr.msize]
  | .captureListE .. => simp [Expr.msize]; omega
  | .otherE .. => simp [Expr.msize]

end

theorem msize_pos_stmt (s : Stmt) : 1 ≤ s.msize := by
  cases s <;> simp [Stmt.msize] <;> omega

theorem msize_pos_closure (c : ClosureInfo) : 1 ≤ c.msize := by
  cases c; simp [ClosureInfo.msize]

theorem msizeConds_pos (l : List CondElt) : 1 ≤ msizeConds l := by
  cases l with
  | nil => simp [msizeConds]
  | cons c rest =>
    have : 1 ≤ msizeCond c := by cases c <;> simp [msizeCond]
    simp [msizeConds]; omega

mutual

theorem sumPsize_forEachClosureIn (e : Expr) :
    sumPsize (forEachClosureIn e) ≤ e.msize := by
  match e with
  | .closureE c => simp [forEachClosureIn, sumPsize, psize, Expr.msize]; omega
  | .captureListE id r inits cb =>
    simp [forEachClosureIn, sumPsize, psize, Expr.msize]; omega
  | .otherE id r imp children =>
    have h := sumPsize_closuresInChildren children
    simp [forEachClosureIn, Expr.msize]; omega

theorem sumPsize_closuresInChildren (l : List WalkChild) :
    sumPsize (closuresInChildren l) ≤ msizeChildren l := by
  match l with
  | [] => simp [closuresInChildren, sumPsize, msizeChildren]
  | .ex e :: rest =>
    have h1 := sumPsize_forEachClosureIn e
    have h2 := sumPsize_closuresInChildren rest
    simp [closuresInChildren, sumPsize_append, msizeChildren]; omega
  | .st s :: rest =>
    have h1 := sumPsize_closuresInStmt s
    have h2 := sumPsize_closuresInChildren rest
    simp [closuresInChildren, sumPsize_append, msizeChildren]; omega
  | .dec d :: rest =>
    have h2 := sumPsize_closuresInChildren rest
    simp [closuresInChildren, msizeChildren]; omega
  | .pat i :: rest =>
    have h2 := sumPsize_closuresInChildren rest
    simp [closuresInChildren, msizeChildren]; omega
  | .typeRep i :: rest =>
    have h2 := sumPsize_closuresInChildren rest
    simp [closuresInChildren, msizeChildren]; omega
  | .paramList i :: rest =>
    have h2 := sumPsize_closuresInChildren rest
    simp [closuresInChildren, msizeChildren]; omega

theorem sumPsize_closuresInStmt (s : Stmt) :
    sumPsize (closuresInStmt s) ≤ s.msize := by
  match s with
  | .brace id r imp elements =>
    have h := sumPsize_closuresInElements elements
    simp [closuresInStmt, Stmt.msize]; omega
  | .guardS .. => simp [closuresInStmt, sumPsize, Stmt.msize]
  | .otherStmt .. => simp [closuresInStmt, sumPsize, Stmt.msize]

theorem sumPsize_closuresInElements (l : List ASTNode) :
    sumPsize (closuresInElements l) ≤ msizeElements l := by
  match l with
  | [] => simp [closuresInElements, sumPsize, msizeElements]
  | .expr e :: rest =>
    have h1 := sumPsize_forEachClosureIn e
    have h2 := sumPsize_closuresInElements rest
    simp [closuresInElements, sumPsize_append, msizeElements, msizeNode]; omega
  | .stmt s :: rest =>
    have h1 := sumPsize_closuresInStmt s
    have h2 := sumPsize_closuresInElements rest
    simp [closuresInElements, sumPsize_append, msizeElements, msizeNode]; omega
  | .decl d :: rest =>
    have h2 := sumPsize_closuresInElements rest
    have hd : 1 ≤ (Decl.msize d) := by cases d <;> simp [Decl.msize] <;> omega
    simp [closuresInElements, msizeElements, msizeNode]; omega

end

/-! ### Non-recursive creation helpers -/

/-- `ASTScopeImpl::doISplitAScope`, a virtual defined outside this
file.  The spec does not determine it, and the result of
`visitBraceStmt` is independent of it because `BraceStmtScope`'s
expansion returns its parent (proved below), so it is modelled as
constantly true. -/
def doISplitAScope : SKind → Bool := fun _ => true

/-- Builds the `SKind` for a `NominalTypeScope` or `ExtensionScope`
with the given portion. -/
def typeScopeKind (isExt : Bool) (portion : Portion) (declId : Nat) : SKind :=
  if isExt then .extensionScope portion declId
  else .nominalTypeScope portion declId

/-- `ConditionalClauseScope::getStatementConditionIfAny` (the base
`ASTScopeImpl` version returns the scope itself). -/
def getStatementConditionIfAny (st : St) (i : Nat) : Nat :=
  match (getNode st i).kind with
  | .conditionalClauseScope _ _ => ((getNode st i).scep).getD i
  | _ => i

/-- `VarDeclScope` creation (`createSubtree<VarDeclScope>`).  Its
expansion calls `addChildrenForAllExplicitAccessors`, whose accessor
scopes resolve through `getEnclosingAbstractStorageDecl` overrides
defined outside this file; accessors are not modelled, so the scope has
no children here. -/
def createVarDeclScope (p : Nat) (v : VarInfo) (st : St) : St :=
  (addChild p (.varDeclScope v.id) none st).2

/-- The loop of
`AbstractPatternEntryScope::forEachVarDeclWithExplicitAccessors` as
invoked by `PatternEntryUseScope` (with `dontRegisterAsDuplicate` =
false, so `isDuplicate` registers): variables already seen are skipped,
and a `VarDeclScope` is created for each variable with a valid braces
range that is not implicit. -/
def varLoop (self : Nat) (vars : List VarInfo) (st : St) : St :=
  match vars with
  | [] => st
  | v :: rest =>
    let r := isDuplicate v.id true st
    let st1 :=
      if r.1 then r.2
      else if v.bracesValid && !v.implicit then createVarDeclScope self v r.2
      else r.2
    varLoop self rest st1

/-- `createSubtree<PatternEntryUseScope>` with its expansion
(`CREATES_NEW_INSERTION_POINT`: returns itself). -/
def createPatternEntryUseScope (declId : Nat) (declRange : SrcRange)
    (vis : Vis) (i : Nat) (vars : List VarInfo) (initEnd : Option Nat)
    (p : Nat) (st : St) : Nat × St :=
  let r := addChild p (.patternEntryUseScope declId i vis initEnd) declRange st
  (r.1, varLoop r.1 vars r.2)

/-- The `forEachVariable` loop of
`ScopeCreator::createAttachedPropertyWrapperScope`:
an `AttachedPropertyWrapperScope` (NO_EXPANSION) for every variable
with a custom attribute. -/
def apwLoop (p : Nat) (vars : List VarInfo) (st : St) : St :=
  match vars with
  | [] => st
  | v :: rest =>
    let st1 :=
      if v.hasCustomAttr then (addChild p (.attachedPropertyWrapperScope v.id) none st).2
      else st
    apwLoop p rest st1

/-- `ScopeCreator::createAttachedPropertyWrapperScope`: scans the
variables of `getPattern(0)` (nothing to scan when the binding has no
entries). -/
def createAttachedPropertyWrapperScope (entries : List PatternEntry)
    (p : Nat) (st : St) : St :=
  match entries with
  | [] => st
  | e :: _ => apwLoop p e.vars st

/-- `createSubtree<GenericParamScope>`.  `NO_EXPANSION(GenericParamScope)`:
`expandMe` returns `getParent()`, that is the parent the scope was just
added to. -/
def createGenericParamScope (parent : Nat) (declId : Nat) (i : Nat)
    (st : St) : Nat × St :=
  let r := addChild parent (.genericParamScope declId i) none st
  (parent, r.2)

/-- The loop of `ScopeCreator::createGenericParamScopes`:
`s = createSubtree<GenericParamScope>(s, ...)` for each parameter not
already seen. -/
def gpLoop (declId : Nat) (i : Nat) (gps : List Nat) (s : Nat) (st : St) :
    Nat × St :=
  match gps with
  | [] => (s, st)
  | g :: rest =>
    let r := isDuplicate g true st
    let nxt :=
      if r.1 then (s, r.2)
      else createGenericParamScope s declId i r.2
    gpLoop declId (i + 1) rest nxt.1 nxt.2

/-- `ScopeCreator::createGenericParamScopes` (a null
`GenericParamList` and an empty one behave identically). -/
def createGenericParamScopes (declId : Nat) (generics : List Nat)
    (parent : Nat) (st : St) : Nat × St :=
  gpLoop declId 0 generics parent st

/-- The collection loop of
`ScopeCreator::forEachSpecializeAttrInSourceOrder`: keep the attributes
not already seen, registering each. -/
def specFilterLoop (attrs : List SpecAttr) (st : St) : List SpecAttr × St :=
  match attrs with
  | [] => ([], st)
  | a :: rest =>
    let r := isDuplicate a.id true st
    let t := specFilterLoop rest r.2
    (if r.1 then t.1 else a :: t.1, t.2)

def insertByLoc (a : SpecAttr) : List SpecAttr → List SpecAttr
  | [] => [a]
  | b :: rest => if a.loc < b.loc then a :: b :: rest else b :: insertByLoc a rest

/-- `std::sort` with the strict `isBeforeInBuffer` comparator, modelled
as insertion sort (a permissible execution of the unstable sort). -/
def sortByLoc : List SpecAttr → List SpecAttr
  | [] => []
  | a :: rest => insertByLoc a (sortByLoc rest)

/-- Create a `SpecializeAttributeScope` (NO_EXPANSION) per attribute. -/
def specCreateLoop (self declId : Nat) (attrs : List SpecAttr) (st : St) : St :=
  match attrs with
  | [] => st
  | a :: rest =>
    specCreateLoop self declId rest
      (addChild self (.specializeAttributeScope a.id declId) none st).2

/-- `ScopeCreator::forEachSpecializeAttrInSourceOrder` combined with
the creation callback of `AbstractFunctionDeclScope`'s expansion. -/
def forEachSpecializeAttrInSourceOrder (self declId : Nat)
    (attrs : List SpecAttr) (st : St) : St :=
  let r := specFilterLoop attrs st
  specCreateLoop self declId (sortByLoc r.1) r.2

/-- Size of an optional `ASTNode` (for termination). -/
def osize : Option ASTNode → Nat
  | none => 0
  | some n => msizeNode n

/-! ### The builder

The mutual block below is the heart of `ASTScopeCreation.cpp`: the
`addScopesToTree` driver, `createScopeFor` with the
`ASTVisitorForScopeCreation` dispatch, and the per-kind
`createSubtree<K>` instantiations fused with the `expandMe` of each
kind.  Functions that return `Nat × St` return the insertion point
designated by the expansion together with the new state. -/

mutual

/-- `ScopeCreator::addScopesToTree`.  The
`ensureSourceRangesAreCorrectWhenAddingDescendants` wrapper
(clear caches, run the additions, recompute bottom-up) reduces to
running the additions because the range cache is modelled by the
derived `scopeRange`. -/
def addScopesToTree (l : List ASTNode) (st : St) : St :=
  -- Save source range recalculation work if possible
  if l.isEmpty then st
  else processNodes l st
termination_by 32 * msizeElements l + 20
decreasing_by
  all_goals simp_wf
  all_goals try simp only [msizeElements, msizeNode, msizeEntries, msizeEntry,
    msizeConds, msizeCond, msizeParams, msizeParam, msizeOptStmt, msizeDecls,
    msizeLL, msizeL, Stmt.msize, Decl.msize, Expr.msize, ClosureInfo.msize,
    osize, psize, sumPsize, List.foldr]
  all_goals omega

/-- The loop of `addScopesToTree`: thread `newNodeInjectionPoint`
through the ordered siblings. -/
def processNodes (l : List ASTNode) (st : St) : St :=
  match l with
  | [] => st
  | n :: rest => processNodes rest (stepNode n st)
termination_by 32 * msizeElements l + 19
decreasing_by
  all_goals simp_wf
  all_goals try simp only [msizeElements, msizeNode, msizeEntries, msizeEntry,
    msizeConds, msizeCond, msizeParams, msizeParam, msizeOptStmt, msizeDecls,
    msizeLL, msizeL, Stmt.msize, Decl.msize, Expr.msize, ClosureInfo.msize,
    osize, psize, sumPsize, List.foldr]
  all_goals omega

/-- One iteration of the `addScopesToTree` loop:
`if (shouldThisNodeBeScopedWhenEncountered(nd))
   newNodeInjectionPoint = createScopeFor(nd, newNodeInjectionPoint)`. -/
def stepNode (n : ASTNode) (st : St) : St :=
  let g := shouldThisNodeBeScopedWhenEncountered n st
  if g.1 then
    let r := createScopeFor (some n) g.2.inj g.2
    { r.2 with inj := r.1 }
  else g.2
termination_by 32 * msizeNode n + 18
decreasing_by
  all_goals simp_wf
  all_goals try simp only [msizeElements, msizeNode, msizeEntries, msizeEntry,
    msizeConds, msizeCond, msizeParams, msizeParam, msizeOptStmt, msizeDecls,
    msizeLL, msizeL, Stmt.msize, Decl.msize, Expr.msize, ClosureInfo.msize,
    osize, psize, sumPsize, List.foldr]
  all_goals omega

/-- `ScopeCreator::createScopeFor`: filter through `shouldCreateScope`,
then dispatch on the node's alternative. -/
def createScopeFor (n : Option ASTNode) (parent : Nat) (st : St) : Nat × St :=
  if shouldCreateScope n then
    match n with
    | some (.decl d) => visitDecl d parent st
    | some (.expr e) => visitExprM e parent st
    | some (.stmt s) => visitStmt s parent st
    | none => (parent, st)
  else (parent, st)
termination_by 32 * osize n + 17
decreasing_by
  all_goals simp_wf
  all_goals try simp only [msizeElements, msizeNode, msizeEntries, msizeEntry,
    msizeConds, msizeCond, msizeParams, msizeParam, msizeOptStmt, msizeDecls,
    msizeLL, msizeL, Stmt.msize, Decl.msize, Expr.msize, ClosureInfo.msize,
    osize, psize, sumPsize, List.foldr]
  all_goals omega

/-- The declaration dispatch of `ASTVisitorForScopeCreation`.
`varD` and `otherDecl` are the `VISIT_AND_IGNORE` kinds: widen the
insertion point's range, return the parent. -/
def visitDecl (d : Decl) (p : Nat) (st : St) : Nat × St :=
  match d with
  | .patternBinding id range _ entries =>
    visitPatternBindingDecl id range entries p st
  | .nominal id range _ generics tw shb hb members =>
    visitIterableDecl false id range generics tw shb hb members p st
  | .extensionD id range _ generics tw shb hb members =>
    visitIterableDecl true id range generics tw shb hb members p st
  | .funcD id range implicit specAttrs generics plId params body inTy acc =>
    visitAbstractFunctionDecl id range implicit specAttrs generics plId
      params body inTy acc p st
  | .topLevelCode id range _ body => visitTopLevelCodeDecl id range body p st
  | .varD r _ _ => (p, widenAt p r st)
  | .otherDecl _ r _ => (p, widenAt p r st)
termination_by 32 * d.msize + 16
decreasing_by
  all_goals simp_wf
  all_goals try simp only [msizeElements, msizeNode, msizeEntries, msizeEntry,
    msizeConds, msizeCond, msizeParams, msizeParam, msizeOptStmt, msizeDecls,
    msizeLL, msizeL, Stmt.msize, Decl.msize, Expr.msize, ClosureInfo.msize,
    osize, psize, sumPsize, List.foldr]
  all_goals omega

/-- The statement dispatch of `ASTVisitorForScopeCreation`.
`otherStmt` covers the `VISIT_AND_IGNORE` statement kinds. -/
def visitStmt (s : Stmt) (p : Nat) (st : St) : Nat × St :=
  match s with
  | .brace bid brange bimp belems => visitBraceStmt (.brace bid brange bimp belems) p st
  | .guardS id range _ cond body endLoc =>
    visitGuardStmt id range cond body endLoc p st
  | .otherStmt _ r _ => (p, widenAt p r st)
termination_by 32 * s.msize + 16
decreasing_by
  all_goals simp_wf
  all_goals try simp only [msizeElements, msizeNode, msizeEntries, msizeEntry,
    msizeConds, msizeCond, msizeParams, msizeParam, msizeOptStmt, msizeDecls,
    msizeLL, msizeL, Stmt.msize, Decl.msize, Expr.msize, ClosureInfo.msize,
    osize, psize, sumPsize, List.foldr]
  all_goals omega

/-- `ASTVisitorForScopeCreation::visitBraceStmt`. -/
def visitBraceStmt (s : Stmt) (p : Nat) (st : St) : Nat × St :=
  let r := createBraceStmtScope s p st
  (if doISplitAScope (getNode r.2 p).kind then r.1 else p, r.2)
termination_by 32 * s.msize + 15
decreasing_by
  all_goals simp_wf
  all_goals try simp only [msizeElements, msizeNode, msizeEntries, msizeEntry,
    msizeConds, msizeCond, msizeParams, msizeParam, msizeOptStmt, msizeDecls,
    msizeLL, msizeL, Stmt.msize, Decl.msize, Expr.msize, ClosureInfo.msize,
    osize, psize, sumPsize, List.foldr]
  all_goals omega

/-- `createSubtree<BraceStmtScope>` with `BraceStmtScope`'s expansion:
`scopeCreator.addScopesToTree(stmt->getElements())`, which attaches the
elements at the creator's current injection point.
`NO_NEW_INSERTION_POINT`: the subtree call returns the parent.
(`visitBraceStmt` is only reached with a brace statement; other
statement shapes are `llvm_unreachable`, modelled as the identity.) -/
def createBraceStmtScope (s : Stmt) (p : Nat) (st : St) : Nat × St :=
  match s with
  | .brace id range _ elements =>
    let r := addChild p (.braceStmtScope id) range st
    (p, addScopesToTree elements r.2)
  | _ => (p, st)
termination_by 32 * s.msize + 14
decreasing_by
  all_goals simp_wf
  all_goals try simp only [msizeElements, msizeNode, msizeEntries, msizeEntry,
    msizeConds, msizeCond, msizeParams, msizeParam, msizeOptStmt, msizeDecls,
    msizeLL, msizeL, Stmt.msize, Decl.msize, Expr.msize, ClosureInfo.msize,
    osize, psize, sumPsize, List.foldr]
  all_goals omega

/-- `visitGuardStmt` / `createSubtree<GuardStmtScope>` with
`GuardStmtScope::expandAScopeThatCreatesANewInsertionPoint`: the
conditional-clause chain, the always-exiting body under the guard scope
itself, then a `ConditionalClauseUseScope` child.  The
`createSubtree<ConditionalClauseUseScope>` call is `NO_EXPANSION` and
hence returns its parent — this guard scope — which is what the guard
hands on as insertion point. -/
def visitGuardStmt (id : Nat) (range : SrcRange) (cond : List CondElt)
    (body : Stmt) (endLoc : Nat) (p : Nat) (st : St) : Nat × St :=
  let r := addChild p (.guardStmtScope id) range st
  let cs := condLoop id 0 cond r.1 r.2
  let lookupParent := getStatementConditionIfAny cs.2 cs.1
  let st2 := (createScopeFor (some (.stmt body)) r.1 cs.2).2
  let st3 := (addChild r.1 (.conditionalClauseUseScope lookupParent endLoc) none st2).2
  (r.1, st3)
termination_by 32 * (msizeConds cond + body.msize + 2) + 15
decreasing_by
  all_goals simp_wf
  all_goals try simp only [msizeElements, msizeNode, msizeEntries, msizeEntry,
    msizeConds, msizeCond, msizeParams, msizeParam, msizeOptStmt, msizeDecls,
    msizeLL, msizeL, Stmt.msize, Decl.msize, Expr.msize, ClosureInfo.msize,
    osize, psize, sumPsize, List.foldr]
  all_goals omega

/-- The loop of `LabeledConditionalStmtScope::createCondScopes`:
`insertionPoint = createSubtree<ConditionalClauseScope>(insertionPoint, ...)`
per condition element. -/
def condLoop (stmtId : Nat) (i : Nat) (conds : List CondElt) (ip : Nat)
    (st : St) : Nat × St :=
  match conds with
  | [] => (ip, st)
  | c :: rest =>
    let r := createConditionalClauseScope ip stmtId i c st
    condLoop stmtId (i + 1) rest r.1 r.2
termination_by 32 * msizeConds conds + 13
decreasing_by
  all_goals simp_wf
  all_goals try simp only [msizeElements, msizeNode, msizeEntries, msizeEntry,
    msizeConds, msizeCond, msizeParams, msizeParam, msizeOptStmt, msizeDecls,
    msizeLL, msizeL, Stmt.msize, Decl.msize, Expr.msize, ClosureInfo.msize,
    osize, psize, sumPsize, List.foldr]
  all_goals omega

/-- `createSubtree<ConditionalClauseScope>` with its expansion
(`CREATES_NEW_INSERTION_POINT`: returns itself after
`createSubtreeForCondition`). -/
def createConditionalClauseScope (p : Nat) (stmtId : Nat) (i : Nat)
    (c : CondElt) (st : St) : Nat × St :=
  let r := addChild p (.conditionalClauseScope stmtId i) none st
  (r.1, createSubtreeForCondition r.1 c r.2)
termination_by 32 * msizeCond c + 14
decreasing_by
  all_goals simp_wf
  all_goals try simp only [msizeElements, msizeNode, msizeEntries, msizeEntry,
    msizeConds, msizeCond, msizeParams, msizeParam, msizeOptStmt, msizeDecls,
    msizeLL, msizeL, Stmt.msize, Decl.msize, Expr.msize, ClosureInfo.msize,
    osize, psize, sumPsize, List.foldr]
  all_goals omega

/-- `ConditionalClauseScope::createSubtreeForCondition`.  In the
pattern case the stored `statementConditionElementPatternScope` is the
result of the `createSubtree<StatementConditionElementPatternScope>`
call, which — being `NO_EXPANSION` — is the new scope's parent, i.e.
the conditional clause itself. -/
def createSubtreeForCondition (self : Nat) (c : CondElt) (st : St) : St :=
  match c with
  | .availability => st
  | .boolean e => (visitExprM e self st).2
  | .patternCond patId initE =>
    let r := addChild self (.statementConditionElementPatternScope patId) none st
    let st1 := setNode r.2 self fun sc => { sc with scep := some self }
    (visitExprM initE self st1).2
termination_by 32 * msizeCond c + 13
decreasing_by
  all_goals simp_wf
  all_goals try simp only [msizeElements, msizeNode, msizeEntries, msizeEntry,
    msizeConds, msizeCond, msizeParams, msizeParam, msizeOptStmt, msizeDecls,
    msizeLL, msizeL, Stmt.msize, Decl.msize, Expr.msize, ClosureInfo.msize,
    osize, psize, sumPsize, List.foldr]
  all_goals omega

/-- `ASTVisitorForScopeCreation::visitPatternBindingDecl`: property
wrappers, then one `PatternEntryDeclScope` continuation per entry; in a
type declaration the chain is discarded and the original parent is
returned. -/
def visitPatternBindingDecl (id : Nat) (range : SrcRange)
    (entries : List PatternEntry) (p : Nat) (st : St) : Nat × St :=
  let st0 := createAttachedPropertyWrapperScope entries p st
  let isInTypeDecl := isATypeDeclScope (getNode st0 p).kind
  let vis := if isInTypeDecl then Vis.memberOfCurrentNominal else Vis.localVariable
  let r := patternEntriesLoop id range vis 0 entries p st0
  (if isInTypeDecl then p else r.1, r.2)
termination_by 32 * (msizeEntries entries + 1) + 15
decreasing_by
  all_goals simp_wf
  all_goals try simp only [msizeElements, msizeNode, msizeEntries, msizeEntry,
    msizeConds, msizeCond, msizeParams, msizeParam, msizeOptStmt, msizeDecls,
    msizeLL, msizeL, Stmt.msize, Decl.msize, Expr.msize, ClosureInfo.msize,
    osize, psize, sumPsize, List.foldr]
  all_goals omega

/-- The entry loop of `visitPatternBindingDecl`:
`insertionPoint = createSubtree<PatternEntryDeclScope>(insertionPoint, ...)`. -/
def patternEntriesLoop (declId : Nat) (declRange : SrcRange) (vis : Vis)
    (i : Nat) (entries : List PatternEntry) (ip : Nat) (st : St) : Nat × St :=
  match entries with
  | [] => (ip, st)
  | e :: rest =>
    let r := createPatternEntryDeclScope declId declRange vis i e ip st
    patternEntriesLoop declId declRange vis (i + 1) rest r.1 r.2
termination_by 32 * msizeEntries entries + 13
decreasing_by
  all_goals simp_wf
  all_goals try simp only [msizeElements, msizeNode, msizeEntries, msizeEntry,
    msizeConds, msizeCond, msizeParams, msizeParam, msizeOptStmt, msizeDecls,
    msizeLL, msizeL, Stmt.msize, Decl.msize, Expr.msize, ClosureInfo.msize,
    osize, psize, sumPsize, List.foldr]
  all_goals omega

/-- `createSubtree<PatternEntryDeclScope>` with
`PatternEntryDeclScope::expandAScopeThatCreatesANewInsertionPoint`:
an initializer child when the written initializer exists and has a
valid range (its derived range's end becoming `initializerEnd`), then
unconditionally the `PatternEntryUseScope`, which is returned. -/
def createPatternEntryDeclScope (declId : Nat) (declRange : SrcRange)
    (vis : Vis) (i : Nat) (e : PatternEntry) (p : Nat) (st : St) : Nat × St :=
  match e with
  | .mk none vars =>
    let r := addChild p (.patternEntryDeclScope declId i vis) declRange st
    createPatternEntryUseScope declId declRange vis i vars none r.1 r.2
  | .mk (some ini) vars =>
    let r := addChild p (.patternEntryDeclScope declId i vis) declRange st
    if ini.exprRange.isSome then
      let r2 := createPatternEntryInitScope declId i vis ini r.1 r.2
      createPatternEntryUseScope declId declRange vis i vars
        (scopeRangeEnd r2.2 r2.1) r.1 r2.2
    else
      createPatternEntryUseScope declId declRange vis i vars none r.1 r.2
termination_by 32 * msizeEntry e + 13
decreasing_by
  all_goals simp_wf
  all_goals try simp only [msizeElements, msizeNode, msizeEntries, msizeEntry,
    msizeConds, msizeCond, msizeParams, msizeParam, msizeOptStmt, msizeDecls,
    msizeLL, msizeL, Stmt.msize, Decl.msize, Expr.msize, ClosureInfo.msize,
    osize, psize, sumPsize, List.foldr]
  all_goals omega

/-- `createSubtree<PatternEntryInitializerScope>` with its expansion
(`CREATES_NEW_INSERTION_POINT`: visit the initializer expression,
return itself). -/
def createPatternEntryInitScope (declId : Nat) (i : Nat) (vis : Vis)
    (ini : Expr) (p : Nat) (st : St) : Nat × St :=
  let r := addChild p (.patternEntryInitializerScope declId i vis) ini.exprRange st
  (r.1, (visitExprM ini r.1 r.2).2)
termination_by 32 * ini.msize + 12
decreasing_by
  all_goals simp_wf
  all_goals try simp only [msizeElements, msizeNode, msizeEntries, msizeEntry,
    msizeConds, msizeCond, msizeParams, msizeParam, msizeOptStmt, msizeDecls,
    msizeLL, msizeL, Stmt.msize, Decl.msize, Expr.msize, ClosureInfo.msize,
    osize, psize, sumPsize, List.foldr]
  all_goals omega

/-- `VISIT_AND_CREATE_WHOLE_PORTION` for nominal types and extensions:
`createSubtree2D<Scope, GenericTypeOrExtensionWholePortion>`.
`NO_NEW_INSERTION_POINT`: returns the parent. -/
def visitIterableDecl (isExt : Bool) (id : Nat) (range : SrcRange)
    (generics : List Nat) (trailingWhere shouldHaveBody hasBody : Bool)
    (members : List Decl) (p : Nat) (st : St) : Nat × St :=
  let r := addChild p (typeScopeKind isExt .whole id) range st
  (p, expandWholePortion isExt id range generics trailingWhere shouldHaveBody
    hasBody members r.1 r.2)
termination_by 32 * (msizeDecls members + 1) + 15
decreasing_by
  all_goals simp_wf
  all_goals try simp only [msizeElements, msizeNode, msizeEntries, msizeEntry,
    msizeConds, msizeCond, msizeParams, msizeParam, msizeOptStmt, msizeDecls,
    msizeLL, msizeL, Stmt.msize, Decl.msize, Expr.msize, ClosureInfo.msize,
    osize, psize, sumPsize, List.foldr]
  all_goals omega

/-- `GenericTypeOrExtensionWholePortion::expandScope`: nothing when a
required body is missing; otherwise generic parameter scopes, a
trailing-where scope when present (`createTrailingWhereClauseScope`
instantiates the scope with the where portion, whose expansion lives
outside this file and — per the spec — introduces no child scopes of
its own; being `NO_NEW_INSERTION_POINT`, the `createSubtree2D` call
returns its parent), then the body scope
(`createSubtree2D<Scope, IterableTypeBodyPortion>`) whose expansion
scopes every member not already seen. -/
def expandWholePortion (isExt : Bool) (id : Nat) (range : SrcRange)
    (generics : List Nat) (trailingWhere shouldHaveBody hasBody : Bool)
    (members : List Decl) (self : Nat) (st : St) : St :=
  if shouldHaveBody && !hasBody then st
  else
    let g := createGenericParamScopes id generics self st
    let w :=
      if trailingWhere then
        (g.1, (addChild g.1 (typeScopeKind isExt .wherePortion id) none g.2).2)
      else g
    let b := addChild w.1 (typeScopeKind isExt .iterableBody id) range w.2
    membersLoop b.1 members b.2
termination_by 32 * msizeDecls members + 14
decreasing_by
  all_goals simp_wf
  all_goals try simp only [msizeElements, msizeNode, msizeEntries, msizeEntry,
    msizeConds, msizeCond, msizeParams, msizeParam, msizeOptStmt, msizeDecls,
    msizeLL, msizeL, Stmt.msize, Decl.msize, Expr.msize, ClosureInfo.msize,
    osize, psize, sumPsize, List.foldr]
  all_goals omega

/-- The member loop of `IterableTypeBodyPortion::expandScope`:
`if (!scopeCreator.isDuplicate(member)) createScopeFor(member, scope)`. -/
def membersLoop (selfBody : Nat) (members : List Decl) (st : St) : St :=
  match members with
  | [] => st
  | m :: rest =>
    let r := isDuplicate m.declId true st
    let st1 := if r.1 then r.2 else (createScopeFor (some (.decl m)) selfBody r.2).2
    membersLoop selfBody rest st1
termination_by 32 * msizeDecls members + 13
decreasing_by
  all_goals simp_wf
  all_goals try simp only [msizeElements, msizeNode, msizeEntries, msizeEntry,
    msizeConds, msizeCond, msizeParams, msizeParam, msizeOptStmt, msizeDecls,
    msizeLL, msizeL, Stmt.msize, Decl.msize, Expr.msize, ClosureInfo.msize,
    osize, psize, sumPsize, List.foldr]
  all_goals omega

/-- `VISIT_AND_CREATE(AbstractFunctionDecl, AbstractFunctionDeclScope)`
with `AbstractFunctionDeclScope`'s expansion: specialize attributes,
then (unless an accessor) generic parameter scopes and (unless
implicit) the parameter scope, then the body scope — a
`MethodBodyScope` in a type context, a `PureFunctionBodyScope`
otherwise.  `NO_NEW_INSERTION_POINT`: returns the parent. -/
def visitAbstractFunctionDecl (id : Nat) (range : SrcRange)
    (implicit : Bool) (specAttrs : List SpecAttr) (generics : List Nat)
    (paramListId : Nat) (params : List ParamSpec) (body : Option Stmt)
    (inTypeContext isAccessor : Bool) (p : Nat) (st : St) : Nat × St :=
  let r := addChild p (.abstractFunctionDeclScope id) range st
  let st1 := forEachSpecializeAttrInSourceOrder r.1 id specAttrs r.2
  let lf :=
    if isAccessor then (r.1, st1)
    else
      let g := createGenericParamScopes id generics r.1 st1
      if implicit then g
      else createAbstractFunctionParamsScope paramListId params g.1 g.2
  match body with
  | none => (p, lf.2)
  | some b =>
    let bodyScope := addChild lf.1
      (if inTypeContext then .methodBodyScope id else .pureFunctionBodyScope id)
      range lf.2
    (p, (visitBraceStmt b bodyScope.1 bodyScope.2).2)
termination_by 32 * (msizeParams params + msizeOptStmt body + 1) + 15
decreasing_by
  all_goals simp_wf
  all_goals try simp only [msizeElements, msizeNode, msizeEntries, msizeEntry,
    msizeConds, msizeCond, msizeParams, msizeParam, msizeOptStmt, msizeDecls,
    msizeLL, msizeL, Stmt.msize, Decl.msize, Expr.msize, ClosureInfo.msize,
    osize, psize, sumPsize, List.foldr]
  all_goals omega

/-- `createSubtree<AbstractFunctionParamsScope>` with
`AbstractFunctionParamsScope::expandAScopeThatCreatesANewInsertionPoint`:
a default-argument initializer scope per parameter with a default that
was not already seen; the body of the function goes under this scope. -/
def createAbstractFunctionParamsScope (paramListId : Nat)
    (params : List ParamSpec) (p : Nat) (st : St) : Nat × St :=
  let r := addChild p (.abstractFunctionParamsScope paramListId) none st
  (r.1, defaultArgLoop r.1 params r.2)
termination_by 32 * msizeParams params + 14
decreasing_by
  all_goals simp_wf
  all_goals try simp only [msizeElements, msizeNode, msizeEntries, msizeEntry,
    msizeConds, msizeCond, msizeParams, msizeParam, msizeOptStmt, msizeDecls,
    msizeLL, msizeL, Stmt.msize, Decl.msize, Expr.msize, ClosureInfo.msize,
    osize, psize, sumPsize, List.foldr]
  all_goals omega

/-- The parameter loop of `AbstractFunctionParamsScope`'s expansion:
`if (!scopeCreator.isDuplicate(pd) && pd->getDefaultValue()) ...`
(the duplicate check registers the parameter in either case). -/
def defaultArgLoop (self : Nat) (params : List ParamSpec) (st : St) : St :=
  match params with
  | .mk pid none :: rest =>
    let r := isDuplicate pid true st
    defaultArgLoop self rest r.2
  | .mk pid (some ini) :: rest =>
    let r := isDuplicate pid true st
    let st1 := if r.1 then r.2 else createDefaultArgumentInitScope pid ini self r.2
    defaultArgLoop self rest st1
  | [] => st
termination_by 32 * msizeParams params + 13
decreasing_by
  all_goals simp_wf
  all_goals try simp only [msizeElements, msizeNode, msizeEntries, msizeEntry,
    msizeConds, msizeCond, msizeParams, msizeParam, msizeOptStmt, msizeDecls,
    msizeLL, msizeL, Stmt.msize, Decl.msize, Expr.msize, ClosureInfo.msize,
    osize, psize, sumPsize, List.foldr]
  all_goals omega

/-- `createSubtree<DefaultArgumentInitializerScope>` with its expansion
(visit the default-value expression); `NO_NEW_INSERTION_POINT`. -/
def createDefaultArgumentInitScope (pid : Nat) (ini : Expr) (p : Nat)
    (st : St) : St :=
  let r := addChild p (.defaultArgumentInitScope pid) none st
  (visitExprM ini r.1 r.2).2
termination_by 32 * ini.msize + 12
decreasing_by
  all_goals simp_wf
  all_goals try simp only [msizeElements, msizeNode, msizeEntries, msizeEntry,
    msizeConds, msizeCond, msizeParams, msizeParam, msizeOptStmt, msizeDecls,
    msizeLL, msizeL, Stmt.msize, Decl.msize, Expr.msize, ClosureInfo.msize,
    osize, psize, sumPsize, List.foldr]
  all_goals omega

/-- `visitTopLevelCodeDecl`: `createSubtree<TopLevelCodeScope>`, whose
expansion wraps the body in a `BraceStmtScope`;
`NO_NEW_INSERTION_POINT`: returns the parent. -/
def visitTopLevelCodeDecl (id : Nat) (range : SrcRange) (body : Stmt)
    (p : Nat) (st : St) : Nat × St :=
  let r := addChild p (.topLevelCodeScope id) range st
  (p, (createBraceStmtScope body r.1 r.2).2)
termination_by 32 * (body.msize + 1) + 15
decreasing_by
  all_goals simp_wf
  all_goals try simp only [msizeElements, msizeNode, msizeEntries, msizeEntry,
    msizeConds, msizeCond, msizeParams, msizeParam, msizeOptStmt, msizeDecls,
    msizeLL, msizeL, Stmt.msize, Decl.msize, Expr.msize, ClosureInfo.msize,
    osize, psize, sumPsize, List.foldr]
  all_goals omega

/-- `ASTVisitorForScopeCreation::visitExpr`: widen the receiving
scope's range, then add capture/closure children. -/
def visitExprM (e : Expr) (p : Nat) (st : St) : Nat × St :=
  let st1 := widenAt p e.exprRange st
  (p, addChildrenForCapturesAndClosuresIn e p st1)
termination_by 32 * e.msize + 9
decreasing_by
  all_goals simp_wf
  all_goals try simp only [msizeElements, msizeNode, msizeEntries, msizeEntry,
    msizeConds, msizeCond, msizeParams, msizeParam, msizeOptStmt, msizeDecls,
    msizeLL, msizeL, Stmt.msize, Decl.msize, Expr.msize, ClosureInfo.msize,
    osize, psize, sumPsize, List.foldr]
  all_goals omega

/-- `ScopeCreator::addChildrenForCapturesAndClosuresIn` via
`forEachUniqueClosureIn`: walk the expression, then create a
`WholeClosureScope` for every reported closure not already seen. -/
def addChildrenForCapturesAndClosuresIn (e : Expr) (p : Nat) (st : St) : St :=
  processClosures (forEachClosureIn e) p st
termination_by 32 * e.msize + 8
decreasing_by
  simp_wf
  have h := sumPsize_forEachClosureIn e
  omega

/-- The dedup-and-create loop of `forEachUniqueClosureIn`. -/
def processClosures (l : List FoundClosure) (p : Nat) (st : St) : St :=
  match l with
  | [] => st
  | (cap, c) :: rest =>
    let r := isDuplicate c.cid true st
    let st1 := if r.1 then r.2 else createWholeClosureScope cap c p r.2
    processClosures rest p st1
termination_by 32 * sumPsize l + 7
decreasing_by
  all_goals simp_wf
  all_goals try simp only [msizeElements, msizeNode, msizeEntries, msizeEntry,
    msizeConds, msizeCond, msizeParams, msizeParam, msizeOptStmt, msizeDecls,
    msizeLL, msizeL, Stmt.msize, Decl.msize, Expr.msize, ClosureInfo.msize,
    osize, psize, sumPsize, List.foldr]
  all_goals omega

/-- `createSubtree<WholeClosureScope>` with
`WholeClosureScope::expandAScopeThatDoesNotCreateANewInsertionPoint`:
a capture-list scope when a capture list is present; then the body —
the `createSubtree<ClosureParametersScope>` call (NO_EXPANSION) returns
its parent, so `bodyParent` is the whole-closure scope itself whether
or not the parameter scope is created. -/
def createWholeClosureScope (cap : Option CapData) (c : ClosureInfo)
    (p : Nat) (st : St) : St :=
  let r := addChild p (.wholeClosureScope (cap.map (·.id)) c.cid) c.crange st
  let st1 :=
    match cap with
    | some cd => createCaptureListScope cd r.1 r.2
    | none => r.2
  let bp :=
    if c.inLocValid then
      (r.1, (addChild r.1 (.closureParametersScope c.cid) none st1).2)
    else (r.1, st1)
  createClosureBodyScope c bp.1 bp.2
termination_by 32 * psize (cap, c) + 6
decreasing_by
  all_goals simp_wf
  all_goals try simp only [psize, sumPsize, List.foldr]
  · omega
  · cases cap <;> simp only [psize] <;> omega

/-- `createSubtree<CaptureListScope>` with
`CaptureListScope::expandAScopeThatDoesNotCreateANewInsertionPoint`:
dig the initializers out of the (implicit) capture patterns and add
their captures and closures. -/
def createCaptureListScope (cd : CapData) (p : Nat) (st : St) : St :=
  let r := addChild p (.captureListScope cd.id) none st
  capInitsLoop cd.captures r.1 r.2
termination_by 32 * msizeLL cd.captures + 5
decreasing_by
  all_goals simp_wf
  all_goals try simp only [msizeElements, msizeNode, msizeEntries, msizeEntry,
    msizeConds, msizeCond, msizeParams, msizeParam, msizeOptStmt, msizeDecls,
    msizeLL, msizeL, Stmt.msize, Decl.msize, Expr.msize, ClosureInfo.msize,
    osize, psize, sumPsize, List.foldr]
  all_goals omega

/-- Outer loop over the capture-list entries. -/
def capInitsLoop (ll : List (List Expr)) (self : Nat) (st : St) : St :=
  match ll with
  | [] => st
  | l :: rest => capInitsLoop rest self (capInitsInner l self st)
termination_by 32 * msizeLL ll + 4
decreasing_by
  all_goals simp_wf
  all_goals try simp only [msizeElements, msizeNode, msizeEntries, msizeEntry,
    msizeConds, msizeCond, msizeParams, msizeParam, msizeOptStmt, msizeDecls,
    msizeLL, msizeL, Stmt.msize, Decl.msize, Expr.msize, ClosureInfo.msize,
    osize, psize, sumPsize, List.foldr]
  all_goals omega

/-- Inner loop over one capture's pattern-entry initializers. -/
def capInitsInner (l : List Expr) (self : Nat) (st : St) : St :=
  match l with
  | [] => st
  | e :: es => capInitsInner es self (addChildrenForCapturesAndClosuresIn e self st)
termination_by 32 * msizeL l + 3
decreasing_by
  all_goals simp_wf
  all_goals try simp only [msizeElements, msizeNode, msizeEntries, msizeEntry,
    msizeConds, msizeCond, msizeParams, msizeParam, msizeOptStmt, msizeDecls,
    msizeLL, msizeL, Stmt.msize, Decl.msize, Expr.msize, ClosureInfo.msize,
    osize, psize, sumPsize, List.foldr]
  all_goals omega

/-- `createSubtree<ClosureBodyScope>` with its expansion:
`createSubtree<BraceStmtScope>(this, closureExpr->getBody())`. -/
def createClosureBodyScope (c : ClosureInfo) (p : Nat) (st : St) : St :=
  let r := addChild p (.closureBodyScope c.cid) c.crange st
  (createBraceStmtScope c.body r.1 r.2).2
termination_by 32 * c.msize + 5
decreasing_by
  simp_wf
  cases c with
  | mk cid crng cinl cbody => simp only [ClosureInfo.msize, ClosureInfo.body]; omega

end

/-! ### The source-file layer -/

/-- The state that `ASTSourceFileScope` and its `ScopeCreator` share:
the source file's declarations (appendable over time),
`numberOfDeclsAlreadySeen`, and the creator state. -/
structure SFState where
  decls : List Decl
  seen : Nat
  st : St

/-- The creator state right after `ScopeCreator`'s constructor: a sole
`ASTSourceFileScope` at index 0, an empty duplicate set, and the
injection point at the source-file scope. -/
def initSt : St :=
  { nodes := [default], dups := [], scopedLog := [], inj := 0 }

/-- `ASTSourceFileScope::addNewDeclsToTree`: slice off the unseen
suffix, feed it through `addScopesToTree`, and remember how many
declarations have been consumed. -/
def addNewDeclsToTree (sf : SFState) : SFState :=
  let newDecls := sf.decls.drop sf.seen
  let st1 := addScopesToTree (newDecls.map ASTNode.decl) sf.st
  { sf with st := st1, seen := sf.decls.length }

/-- `ASTScope::createScopeTreeFor`: construct the creator and fold in
all declarations parsed so far. -/
def createScopeTreeFor (decls : List Decl) : SFState :=
  addNewDeclsToTree { decls := decls, seen := 0, st := initSt }

/-- The parser appending newly parsed top-level declarations to the
source file. -/
def appendDecls (sf : SFState) (ds : List Decl) : SFState :=
  { sf with decls := sf.decls ++ ds }

/-- `ASTScope::addAnyNewScopesToTree`: re-enter the builder on the
stored source-file scope. -/
def addAnyNewScopesToTree (sf : SFState) : SFState :=
  addNewDeclsToTree sf

/-! ### Invariants and step preservation

`SOK s t` records how any builder step turns state `s` into state `t`:
the arena only grows, existing nodes keep their kind and parent and
only gain children, the duplicate set only grows, and the ghost-log and
well-formedness invariants transfer. -/

/-- The ghost log never records an identity twice and only records
identities present in the duplicate set. -/
def DupsLogInv (st : St) : Prop :=
  st.scopedLog.Nodup ∧ ∀ x ∈ st.scopedLog, x ∈ st.dups

instance : DecidablePred DupsLogInv := fun st => by
  unfold DupsLogInv; infer_instance

/-- Well-formedness of the arena: every child index is strictly larger
than its parent's index and in bounds. -/
def WFidx (st : St) : Prop :=
  ∀ i, i < st.nodes.length → ∀ j ∈ (getNode st i).children,
    i < j ∧ j < st.nodes.length

instance : DecidablePred WFidx := fun st => by
  unfold WFidx; infer_instance

structure SOK (s t : St) : Prop where
  len_le : s.nodes.length ≤ t.nodes.length
  kind_eq : ∀ i, i < s.nodes.length → (getNode t i).kind = (getNode s i).kind
  parent_eq : ∀ i, i < s.nodes.length →
    (getNode t i).parent = (getNode s i).parent
  children_ext : ∀ i, i < s.nodes.length →
    ∃ l, (getNode t i).children = (getNode s i).children ++ l
  dups_mono : ∀ x ∈ s.dups, x ∈ t.dups
  log_inv : DupsLogInv s → DupsLogInv t
  wf : WFidx s → WFidx t

theorem SOK.refl (s : St) : SOK s s :=
  ⟨le_rfl, fun _ _ => rfl, fun _ _ => rfl, fun _ _ => ⟨[], by simp⟩,
   fun _ h => h, id, id⟩

theorem SOK.trans {s m t : St} (h1 : SOK s m) (h2 : SOK m t) : SOK s t := by
  refine ⟨h1.len_le.trans h2.len_le, ?_, ?_, ?_, ?_, ?_, ?_⟩
  · intro i hi
    rw [h2.kind_eq i (lt_of_lt_of_le hi h1.len_le), h1.kind_eq i hi]
  · intro i hi
    rw [h2.parent_eq i (lt_of_lt_of_le hi h1.len_le), h1.parent_eq i hi]
  · intro i hi
    obtain ⟨l1, e1⟩ := h1.children_ext i hi
    obtain ⟨l2, e2⟩ := h2.children_ext i (lt_of_lt_of_le hi h1.len_le)
    exact ⟨l1 ++ l2, by rw [e2, e1, List.append_assoc]⟩
  · exact fun x hx => h2.dups_mono x (h1.dups_mono x hx)
  · exact fun h => h2.log_inv (h1.log_inv h)
  · exact fun h => h2.wf (h1.wf h)

theorem getNode_setNode_ne (st : St) (i j : Nat) (f : Scope → Scope)
    (h : j ≠ i) : getNode (setNode st i f) j = getNode st j := by
  unfold setNode getNode
  simp [List.getD_eq_getElem?_getD, List.getElem?_set_ne (Ne.symm h)]

theorem getNode_setNode_self (st : St) (i : Nat) (f : Scope → Scope)
    (h : i < st.nodes.length) : getNode (setNode st i f) i = f (getNode st i) := by
  unfold setNode getNode
  simp [List.getD_eq_getElem?_getD, List.getElem?_set_self' , h,
    List.getElem?_eq_getElem h]

theorem setNode_length (st : St) (i : Nat) (f : Scope → Scope) :
    (setNode st i f).nodes.length = st.nodes.length := by
  simp [setNode]

theorem getNode_append_lt (st : St) (x : Scope) (j : Nat)
    (h : j < st.nodes.length) :
    getNode { st with nodes := st.nodes ++ [x] } j = getNode st j := by
  unfold getNode
  simp [List.getD_eq_getElem?_getD, List.getElem?_append_left h]

theorem getNode_setNode (st : St) (i j : Nat) (f : Scope → Scope) :
    getNode (setNode st i f) j =
      if j = i ∧ i < st.nodes.length then f (getNode st i) else getNode st j := by
  by_cases hj : j = i
  · subst hj
    by_cases h : j < st.nodes.length
    · simp [h, getNode_setNode_self st j f h]
    · simp only [h, and_false, if_false]
      unfold setNode
      rw [List.set_eq_of_length_le (le_of_not_lt h)]
  · rw [getNode_setNode_ne st i j f hj]; simp [hj]

theorem sok_setNode_of (st : St) (i : Nat) (f : Scope → Scope)
    (hf : ∀ sc, (f sc).kind = sc.kind ∧ (f sc).parent = sc.parent ∧
      (f sc).children = sc.children) : SOK st (setNode st i f) := by
  refine ⟨by simp [setNode_length], ?_, ?_, ?_, fun x hx => hx, id, ?_⟩
  · intro j _
    rw [getNode_setNode]
    split
    · next h => rw [(hf _).1, h.1]
    · rfl
  · intro j _
    rw [getNode_setNode]
    split
    · next h => rw [(hf _).2.1, h.1]
    · rfl
  · intro j _
    rw [getNode_setNode]
    split
    · next h => exact ⟨[], by rw [(hf _).2.2, h.1]; simp⟩
    · exact ⟨[], by simp⟩
  · intro hwf j hj k hk
    rw [setNode_length] at hj
    rw [getNode_setNode] at hk
    split at hk
    · next h =>
      rw [(hf _).2.2] at hk
      rw [setNode_length]
      exact h.1 ▸ hwf i h.2 k hk
    · rw [setNode_length]
      exact hwf j hj k hk

theorem addChild_fst (p : Nat) (k : SKind) (r : SrcRange) (st : St) :
    (addChild p k r st).1 = st.nodes.length := rfl

theorem addChild_len (p : Nat) (k : SKind) (r : SrcRange) (st : St) :
    (addChild p k r st).2.nodes.length = st.nodes.length + 1 := by
  simp [addChild, setNode]

theorem addChild_dups (p : Nat) (k : SKind) (r : SrcRange) (st : St) :
    (addChild p k r st).2.dups = st.dups := rfl

theorem addChild_log (p : Nat) (k : SKind) (r : SrcRange) (st : St) :
    (addChild p k r st).2.scopedLog = st.scopedLog := rfl

theorem addChild_inj (p : Nat) (k : SKind) (r : SrcRange) (st : St) :
    (addChild p k r st).2.inj = st.inj := rfl

theorem getD_concat_self (l : List Scope) (x : Scope) :
    (l ++ [x]).getD l.length default = x := by
  rw [List.getD_eq_getElem?_getD, List.getElem?_concat_length]; rfl

theorem getD_append_lt (l l2 : List Scope) (j : Nat) (d : Scope)
    (h : j < l.length) : (l ++ l2).getD j d = l.getD j d := by
  rw [List.getD_eq_getElem?_getD, List.getD_eq_getElem?_getD,
    List.getElem?_append_left h]

theorem getNode_addChild_new (p : Nat) (k : SKind) (r : SrcRange) (st : St) :
    getNode (addChild p k r st).2 st.nodes.length =
      ⟨k, some p, [], r, [], none⟩ := by
  have h1 : (addChild p k r st).2.nodes =
      (setNode st p fun sc =>
        { sc with children := sc.children ++ [st.nodes.length] }).nodes ++
      [⟨k, some p, [], r, [], none⟩] := rfl
  show (addChild p k r st).2.nodes.getD st.nodes.length default = _
  rw [h1]
  have h2 := setNode_length st p
    (fun sc => { sc with children := sc.children ++ [st.nodes.length] })
  nth_rewrite 2 [← h2]
  exact getD_concat_self _ _

theorem getNode_addChild_old (p : Nat) (k : SKind) (r : SrcRange) (st : St)
    (j : Nat) (h : j < st.nodes.length) :
    getNode (addChild p k r st).2 j =
      if j = p then
        { getNode st j with children := (getNode st j).children ++ [st.nodes.length] }
      else getNode st j := by
  have h1 : (addChild p k r st).2.nodes =
      (setNode st p fun sc =>
        { sc with children := sc.children ++ [st.nodes.length] }).nodes ++
      [⟨k, some p, [], r, [], none⟩] := rfl
  show (addChild p k r st).2.nodes.getD j default = _
  rw [h1, getD_append_lt _ _ _ _ (by rw [setNode_length]; exact h)]
  show getNode (setNode st p _) j = _
  rw [getNode_setNode]
  by_cases hj : j = p
  · subst hj; simp [h]
  · simp [hj]

theorem sok_addChild (p : Nat) (k : SKind) (r : SrcRange) (st : St) :
    SOK st (addChild p k r st).2 := by
  refine ⟨by rw [addChild_len]; omega, ?_, ?_, ?_, ?_, ?_, ?_⟩
  · intro j hj
    rw [getNode_addChild_old p k r st j hj]
    split <;> rfl
  · intro j hj
    rw [getNode_addChild_old p k r st j hj]
    split <;> rfl
  · intro j hj
    rw [getNode_addChild_old p k r st j hj]
    split
    · exact ⟨[st.nodes.length], rfl⟩
    · exact ⟨[], by simp⟩
  · intro x hx; rw [addChild_dups]; exact hx
  · intro h; exact h
  · intro hwf i hi j hj
    rw [addChild_len] at hi ⊢
    by_cases hlt : i < st.nodes.length
    · rw [getNode_addChild_old p k r st i hlt] at hj
      split at hj
      · rw [List.mem_append] at hj
        rcases hj with hj | hj
        · have := hwf i hlt j hj; omega
        · simp at hj; omega
      · have := hwf i hlt j hj; omega
    · have hieq : i = st.nodes.length := by omega
      subst hieq
      rw [getNode_addChild_new] at hj
      simp at hj

theorem sok_widenAt (i : Nat) (r : SrcRange) (st : St) :
    SOK st (widenAt i r st) :=
  sok_setNode_of st i _ (fun sc => ⟨rfl, rfl, rfl⟩)

theorem widenAt_dups (i : Nat) (r : SrcRange) (st : St) :
    (widenAt i r st).dups = st.dups := rfl

theorem widenAt_len (i : Nat) (r : SrcRange) (st : St) :
    (widenAt i r st).nodes.length = st.nodes.length := setNode_length ..

theorem sok_registerIfNew (id : Nat) (st : St) :
    SOK st (registerIfNew id st).2 := by
  unfold registerIfNew
  split
  · exact SOK.refl st
  · next h =>
    refine ⟨le_rfl, fun _ _ => rfl, fun _ _ => rfl,
      fun _ _ => ⟨[], by simp [getNode]⟩, ?_, ?_, fun h => h⟩
    · intro x hx
      simp only [List.mem_cons]
      exact Or.inr hx
    · rintro ⟨hn, hsub⟩
      refine ⟨?_, ?_⟩
      · simp only [List.nodup_cons]
        exact ⟨fun hmem => h (hsub id hmem), hn⟩
      · intro x hx
        simp only [List.mem_cons] at hx ⊢
        rcases hx with hx | hx
        · exact Or.inl hx
        · exact Or.inr (hsub x hx)

theorem registerIfNew_nodes (id : Nat) (st : St) :
    (registerIfNew id st).2.nodes = st.nodes := by
  unfold registerIfNew; split <;> rfl

theorem registerIfNew_inj (id : Nat) (st : St) :
    (registerIfNew id st).2.inj = st.inj := by
  unfold registerIfNew; split <;> rfl

theorem registerIfNew_true_iff (id : Nat) (st : St) :
    (registerIfNew id st).1 = true ↔ id ∉ st.dups := by
  unfold registerIfNew
  split <;> simp_all

theorem registerIfNew_mem_dups (id : Nat) (st : St) :
    id ∈ (registerIfNew id st).2.dups := by
  unfold registerIfNew
  split
  · next h => exact h
  · simp

theorem registerIfNew_false_eq (id : Nat) (st : St)
    (h : (registerIfNew id st).1 = false) : (registerIfNew id st).2 = st := by
  unfold registerIfNew at h ⊢
  split at h
  · next hm => simp [hm]
  · simp at h

theorem sok_isDuplicate (p : Nat) (b : Bool) (st : St) :
    SOK st (isDuplicate p b st).2 := by
  unfold isDuplicate
  split
  · exact sok_registerIfNew p st
  · exact SOK.refl st

theorem isDuplicate_reg_nodes (p : Nat) (st : St) :
    (isDuplicate p true st).2.nodes = st.nodes := by
  unfold isDuplicate
  simp [registerIfNew_nodes]

theorem isDuplicate_reg_mem (p : Nat) (st : St) :
    p ∈ (isDuplicate p true st).2.dups := by
  unfold isDuplicate
  simp [registerIfNew_mem_dups]

theorem isDuplicate_reg_false_iff (p : Nat) (st : St) :
    (isDuplicate p true st).1 = false ↔ p ∉ st.dups := by
  unfold isDuplicate
  simp [registerIfNew_true_iff]

/-- `SOK` ignores the injection-point cursor. -/
theorem SOK.inj_irrel {s t : St} (v : Nat) (h : SOK s t) :
    SOK s { t with inj := v } :=
  ⟨h.len_le, h.kind_eq, h.parent_eq, h.children_ext, h.dups_mono,
   h.log_inv, h.wf⟩

theorem sok_shouldThisNode (n : ASTNode) (st : St) :
    SOK st (shouldThisNodeBeScopedWhenEncountered n st).2 := by
  unfold shouldThisNodeBeScopedWhenEncountered
  split
  · exact SOK.refl st
  · exact sok_registerIfNew _ st

theorem sok_createVarDeclScope (p : Nat) (v : VarInfo) (st : St) :
    SOK st (createVarDeclScope p v st) :=
  sok_addChild ..

theorem sok_varLoop (self : Nat) (vars : List VarInfo) (st : St) :
    SOK st (varLoop self vars st) := by
  induction vars generalizing st with
  | nil => exact SOK.refl st
  | cons v rest ih =>
    rw [varLoop]
    refine SOK.trans ?_ (ih _)
    refine SOK.trans (sok_isDuplicate v.id true st) ?_
    split
    · exact SOK.refl _
    · split
      · exact sok_createVarDeclScope ..
      · exact SOK.refl _

theorem sok_createPatternEntryUseScope (declId : Nat) (declRange : SrcRange)
    (vis : Vis) (i : Nat) (vars : List VarInfo) (initEnd : Option Nat)
    (p : Nat) (st : St) :
    SOK st (createPatternEntryUseScope declId declRange vis i vars initEnd p st).2 := by
  unfold createPatternEntryUseScope
  exact SOK.trans (sok_addChild ..) (sok_varLoop ..)

theorem sok_apwLoop (p : Nat) (vars : List VarInfo) (st : St) :
    SOK st (apwLoop p vars st) := by
  induction vars generalizing st with
  | nil => exact SOK.refl st
  | cons v rest ih =>
    rw [apwLoop]
    refine SOK.trans ?_ (ih _)
    split
    · exact sok_addChild ..
    · exact SOK.refl _

theorem sok_createAttachedPropertyWrapperScope (entries : List PatternEntry)
    (p : Nat) (st : St) :
    SOK st (createAttachedPropertyWrapperScope entries p st) := by
  unfold createAttachedPropertyWrapperScope
  split
  · exact SOK.refl st
  · exact sok_apwLoop ..

theorem sok_createGenericParamScope (parent : Nat) (declId : Nat) (i : Nat)
    (st : St) : SOK st (createGenericParamScope parent declId i st).2 :=
  sok_addChild ..

theorem sok_gpLoop (declId : Nat) (i : Nat) (gps : List Nat) (s : Nat)
    (st : St) : SOK st (gpLoop declId i gps s st).2 := by
  induction gps generalizing i s st with
  | nil => exact SOK.refl st
  | cons g rest ih =>
    rw [gpLoop]
    refine SOK.trans ?_ (ih ..)
    refine SOK.trans (sok_isDuplicate g true st) ?_
    split
    · exact SOK.refl _
    · exact sok_createGenericParamScope ..

theorem sok_createGenericParamScopes (declId : Nat) (generics : List Nat)
    (parent : Nat) (st : St) :
    SOK st (createGenericParamScopes declId generics parent st).2 :=
  sok_gpLoop ..

theorem sok_specFilterLoop (attrs : List SpecAttr) (st : St) :
    SOK st (specFilterLoop attrs st).2 := by
  induction attrs generalizing st with
  | nil => exact SOK.refl st
  | cons a rest ih =>
    rw [specFilterLoop]
    exact SOK.trans (sok_isDuplicate a.id true st) (ih _)

theorem sok_specCreateLoop (self declId : Nat) (attrs : List SpecAttr)
    (st : St) : SOK st (specCreateLoop self declId attrs st) := by
  induction attrs generalizing st with
  | nil => exact SOK.refl st
  | cons a rest ih =>
    rw [specCreateLoop]
    exact SOK.trans (sok_addChild ..) (ih _)

theorem sok_forEachSpecializeAttrInSourceOrder (self declId : Nat)
    (attrs : List SpecAttr) (st : St) :
    SOK st (forEachSpecializeAttrInSourceOrder self declId attrs st) := by
  unfold forEachSpecializeAttrInSourceOrder
  exact SOK.trans (sok_specFilterLoop ..) (sok_specCreateLoop ..)

/-! The step-preservation family over the builder, by the same
well-founded recursion as the builder itself. -/

mutual

theorem sok_addScopesToTree (l : List ASTNode) (st : St) :
    SOK st (addScopesToTree l st) := by
  rw [addScopesToTree]
  split
  · exact SOK.refl st
  · exact sok_processNodes l st
termination_by 32 * msizeElements l + 20

theorem sok_processNodes (l : List ASTNode) (st : St) :
    SOK st (processNodes l st) := by
  cases l with
  | nil => rw [processNodes]; exact SOK.refl st
  | cons n rest =>
    rw [processNodes]
    exact SOK.trans (sok_stepNode n st) (sok_processNodes rest (stepNode n st))
termination_by 32 * msizeElements l + 19
decreasing_by
  all_goals try simp only [msizeElements, msizeNode]
  all_goals omega

theorem sok_stepNode (n : ASTNode) (st : St) : SOK st (stepNode n st) := by
  rw [stepNode]
  split
  · exact SOK.trans (sok_shouldThisNode n st)
      (SOK.inj_irrel _ (sok_createScopeFor (some n) _ _))
  · exact sok_shouldThisNode n st
termination_by 32 * msizeNode n + 18
decreasing_by
  simp only [osize]; omega

theorem sok_createScopeFor (n : Option ASTNode) (parent : Nat) (st : St) :
    SOK st (createScopeFor n parent st).2 := by
  cases n with
  | none => rw [createScopeFor.eq_def]; split <;> exact SOK.refl st
  | some nn =>
    cases nn with
    | decl d =>
      rw [createScopeFor.eq_def]
      split
      · exact sok_visitDecl ..
      · exact SOK.refl st
    | stmt s =>
      rw [createScopeFor.eq_def]
      split
      · exact sok_visitStmt ..
      · exact SOK.refl st
    | expr e =>
      rw [createScopeFor.eq_def]
      split
      · exact sok_visitExprM ..
      · exact SOK.refl st
termination_by 32 * osize n + 17
decreasing_by
  all_goals try simp only [osize, msizeNode]
  all_goals omega

theorem sok_visitDecl (d : Decl) (p : Nat) (st : St) :
    SOK st (visitDecl d p st).2 := by
  cases d with
  | patternBinding id range implicit entries =>
    rw [visitDecl]; exact sok_visitPatternBindingDecl ..
  | nominal id range implicit generics tw shb hb members =>
    rw [visitDecl]; exact sok_visitIterableDecl ..
  | extensionD id range implicit generics tw shb hb members =>
    rw [visitDecl]; exact sok_visitIterableDecl ..
  | funcD id range implicit specAttrs generics plId params body inTy acc =>
    rw [visitDecl]; exact sok_visitAbstractFunctionDecl ..
  | topLevelCode id range implicit body =>
    rw [visitDecl]; exact sok_visitTopLevelCodeDecl ..
  | varD r implicit v => rw [visitDecl]; exact sok_widenAt ..
  | otherDecl id r implicit => rw [visitDecl]; exact sok_widenAt ..
termination_by 32 * d.msize + 16
decreasing_by
  all_goals try simp only [Decl.msize, msizeEntries, msizeDecls, msizeParams,
    msizeOptStmt, Stmt.msize]
  all_goals omega

theorem sok_visitStmt (s : Stmt) (p : Nat) (st : St) :
    SOK st (visitStmt s p st).2 := by
  cases s with
  | brace bid brange bimp belems =>
    rw [visitStmt.eq_def]; exact sok_visitBraceStmt ..
  | guardS id range implicit cond body endLoc =>
    rw [visitStmt.eq_def]; exact sok_visitGuardStmt ..
  | otherStmt id r implicit => rw [visitStmt.eq_def]; exact sok_widenAt ..
termination_by 32 * s.msize + 16
decreasing_by
  all_goals try simp only [Stmt.msize]
  all_goals omega

theorem sok_visitBraceStmt (s : Stmt) (p : Nat) (st : St) :
    SOK st (visitBraceStmt s p st).2 := by
  rw [visitBraceStmt]
  exact sok_createBraceStmtScope ..
termination_by 32 * s.msize + 15

theorem sok_createBraceStmtScope (s : Stmt) (p : Nat) (st : St) :
    SOK st (createBraceStmtScope s p st).2 := by
  cases s with
  | brace id range implicit elements =>
    rw [createBraceStmtScope]
    exact SOK.trans (sok_addChild ..) (sok_addScopesToTree ..)
  | guardS id range implicit cond body endLoc =>
    rw [createBraceStmtScope.eq_def]; exact SOK.refl st
  | otherStmt id r implicit =>
    rw [createBraceStmtScope.eq_def]; exact SOK.refl st
termination_by 32 * s.msize + 14
decreasing_by
  simp only [Stmt.msize]; omega

theorem sok_visitGuardStmt (id : Nat) (range : SrcRange)
    (cond : List CondElt) (body : Stmt) (endLoc : Nat) (p : Nat) (st : St) :
    SOK st (visitGuardStmt id range cond body endLoc p st).2 := by
  rw [visitGuardStmt]
  exact SOK.trans (sok_addChild ..)
    (SOK.trans (sok_condLoop ..)
      (SOK.trans (sok_createScopeFor ..) (sok_addChild ..)))
termination_by 32 * (msizeConds cond + body.msize + 2) + 15
decreasing_by
  all_goals try simp only [osize, msizeNode]
  all_goals omega

theorem sok_condLoop (stmtId : Nat) (i : Nat) (conds : List CondElt)
    (ip : Nat) (st : St) : SOK st (condLoop stmtId i conds ip st).2 := by
  cases conds with
  | nil => rw [condLoop]; exact SOK.refl st
  | cons c rest =>
    rw [condLoop]
    exact SOK.trans (sok_createConditionalClauseScope ..) (sok_condLoop ..)
termination_by 32 * msizeConds conds + 13
decreasing_by
  all_goals try simp only [msizeConds]
  all_goals omega

theorem sok_createConditionalClauseScope (p : Nat) (stmtId : Nat) (i : Nat)
    (c : CondElt) (st : St) :
    SOK st (createConditionalClauseScope p stmtId i c st).2 := by
  rw [createConditionalClauseScope]
  exact SOK.trans (sok_addChild ..) (sok_createSubtreeForCondition ..)
termination_by 32 * msizeCond c + 14

theorem sok_createSubtreeForCondition (self : Nat) (c : CondElt) (st : St) :
    SOK st (createSubtreeForCondition self c st) := by
  cases c with
  | availability => rw [createSubtreeForCondition]; exact SOK.refl st
  | boolean e => rw [createSubtreeForCondition]; exact sok_visitExprM ..
  | patternCond patId initE =>
    rw [createSubtreeForCondition]
    exact SOK.trans (sok_addChild ..)
      (SOK.trans (sok_setNode_of _ self (fun sc => { sc with scep := some self })
          (fun sc => ⟨rfl, rfl, rfl⟩))
        (sok_visitExprM ..))
termination_by 32 * msizeCond c + 13
decreasing_by
  all_goals try simp only [msizeCond]
  all_goals omega

theorem sok_visitPatternBindingDecl (id : Nat) (range : SrcRange)
    (entries : List PatternEntry) (p : Nat) (st : St) :
    SOK st (visitPatternBindingDecl id range entries p st).2 := by
  rw [visitPatternBindingDecl]
  exact SOK.trans (sok_createAttachedPropertyWrapperScope ..)
    (sok_patternEntriesLoop ..)
termination_by 32 * (msizeEntries entries + 1) + 15

theorem sok_patternEntriesLoop (declId : Nat) (declRange : SrcRange)
    (vis : Vis) (i : Nat) (entries : List PatternEntry) (ip : Nat) (st : St) :
    SOK st (patternEntriesLoop declId declRange vis i entries ip st).2 := by
  cases entries with
  | nil => rw [patternEntriesLoop]; exact SOK.refl st
  | cons e rest =>
    rw [patternEntriesLoop]
    exact SOK.trans (sok_createPatternEntryDeclScope ..)
      (sok_patternEntriesLoop ..)
termination_by 32 * msizeEntries entries + 13
decreasing_by
  all_goals try simp only [msizeEntries]
  all_goals omega

theorem sok_createPatternEntryDeclScope (declId : Nat) (declRange : SrcRange)
    (vis : Vis) (i : Nat) (e : PatternEntry) (p : Nat) (st : St) :
    SOK st (createPatternEntryDeclScope declId declRange vis i e p st).2 := by
  cases e with
  | mk iaw vars =>
    cases iaw with
    | none =>
      rw [createPatternEntryDeclScope]
      exact SOK.trans (sok_addChild ..) (sok_createPatternEntryUseScope ..)
    | some ini =>
      rw [createPatternEntryDeclScope]
      split
      · exact SOK.trans (sok_addChild ..)
          (SOK.trans (sok_createPatternEntryInitScope ..)
            (sok_createPatternEntryUseScope ..))
      · exact SOK.trans (sok_addChild ..) (sok_createPatternEntryUseScope ..)
termination_by 32 * msizeEntry e + 13
decreasing_by
  all_goals try simp only [msizeEntry]
  all_goals omega

theorem sok_createPatternEntryInitScope (declId : Nat) (i : Nat) (vis : Vis)
    (ini : Expr) (p : Nat) (st : St) :
    SOK st (createPatternEntryInitScope declId i vis ini p st).2 := by
  rw [createPatternEntryInitScope]
  exact SOK.trans (sok_addChild ..) (sok_visitExprM ..)
termination_by 32 * ini.msize + 12

theorem sok_visitIterableDecl (isExt : Bool) (id : Nat) (range : SrcRange)
    (generics : List Nat) (tw shb hb : Bool) (members : List Decl)
    (p : Nat) (st : St) :
    SOK st (visitIterableDecl isExt id range generics tw shb hb members p st).2 := by
  rw [visitIterableDecl]
  exact SOK.trans (sok_addChild ..) (sok_expandWholePortion ..)
termination_by 32 * (msizeDecls members + 1) + 15

theorem sok_expandWholePortion (isExt : Bool) (id : Nat) (range : SrcRange)
    (generics : List Nat) (tw shb hb : Bool) (members : List Decl)
    (self : Nat) (st : St) :
    SOK st (expandWholePortion isExt id range generics tw shb hb members self st) := by
  rw [expandWholePortion]
  split
  · exact SOK.refl st
  · cases tw with
    | true =>
      exact SOK.trans (sok_createGenericParamScopes ..)
        (SOK.trans (sok_addChild ..)
          (SOK.trans (sok_addChild ..) (sok_membersLoop ..)))
    | false =>
      exact SOK.trans (sok_createGenericParamScopes ..)
        (SOK.trans (sok_addChild ..) (sok_membersLoop ..))
termination_by 32 * msizeDecls members + 14

theorem sok_membersLoop (selfBody : Nat) (members : List Decl) (st : St) :
    SOK st (membersLoop selfBody members st) := by
  cases members with
  | nil => rw [membersLoop]; exact SOK.refl st
  | cons m rest =>
    rw [membersLoop]
    refine SOK.trans ?_ (sok_membersLoop ..)
    refine SOK.trans (sok_isDuplicate m.declId true st) ?_
    split
    · exact SOK.refl _
    · exact sok_createScopeFor ..
termination_by 32 * msizeDecls members + 13
decreasing_by
  all_goals try simp only [msizeDecls, osize, msizeNode]
  all_goals omega

theorem sok_visitAbstractFunctionDecl (id : Nat) (range : SrcRange)
    (implicit : Bool) (specAttrs : List SpecAttr) (generics : List Nat)
    (paramListId : Nat) (params : List ParamSpec) (body : Option Stmt)
    (inTypeContext isAccessor : Bool) (p : Nat) (st : St) :
    SOK st (visitAbstractFunctionDecl id range implicit specAttrs generics
      paramListId params body inTypeContext isAccessor p st).2 := by
  cases body with
  | none =>
    cases isAccessor with
    | true =>
      rw [visitAbstractFunctionDecl.eq_def]
      exact SOK.trans (sok_addChild ..) (sok_forEachSpecializeAttrInSourceOrder ..)
    | false =>
      cases implicit with
      | true =>
        rw [visitAbstractFunctionDecl.eq_def]
        exact SOK.trans (sok_addChild ..)
          (SOK.trans (sok_forEachSpecializeAttrInSourceOrder ..)
            (sok_createGenericParamScopes ..))
      | false =>
        rw [visitAbstractFunctionDecl.eq_def]
        exact SOK.trans (sok_addChild ..)
          (SOK.trans (sok_forEachSpecializeAttrInSourceOrder ..)
            (SOK.trans (sok_createGenericParamScopes ..)
              (sok_createAbstractFunctionParamsScope ..)))
  | some b =>
    cases isAccessor with
    | true =>
      rw [visitAbstractFunctionDecl.eq_def]
      exact SOK.trans (sok_addChild ..)
        (SOK.trans (sok_forEachSpecializeAttrInSourceOrder ..)
          (SOK.trans (sok_addChild ..) (sok_visitBraceStmt ..)))
    | false =>
      cases implicit with
      | true =>
        rw [visitAbstractFunctionDecl.eq_def]
        exact SOK.trans (sok_addChild ..)
          (SOK.trans (sok_forEachSpecializeAttrInSourceOrder ..)
            (SOK.trans (sok_createGenericParamScopes ..)
              (SOK.trans (sok_addChild ..) (sok_visitBraceStmt ..))))
      | false =>
        rw [visitAbstractFunctionDecl.eq_def]
        exact SOK.trans (sok_addChild ..)
          (SOK.trans (sok_forEachSpecializeAttrInSourceOrder ..)
            (SOK.trans (sok_createGenericParamScopes ..)
              (SOK.trans (sok_createAbstractFunctionParamsScope ..)
                (SOK.trans (sok_addChild ..) (sok_visitBraceStmt ..)))))
termination_by 32 * (msizeParams params + msizeOptStmt body + 1) + 15
decreasing_by
  all_goals try simp only [msizeOptStmt]
  all_goals omega

theorem sok_createAbstractFunctionParamsScope (paramListId : Nat)
    (params : List ParamSpec) (p : Nat) (st : St) :
    SOK st (createAbstractFunctionParamsScope paramListId params p st).2 := by
  rw [createAbstractFunctionParamsScope]
  exact SOK.trans (sok_addChild ..) (sok_defaultArgLoop ..)
termination_by 32 * msizeParams params + 14

theorem sok_defaultArgLoop (self : Nat) (params : List ParamSpec) (st : St) :
    SOK st (defaultArgLoop self params st) := by
  match params with
  | [] => rw [defaultArgLoop]; exact SOK.refl st
  | .mk pid none :: rest =>
    rw [defaultArgLoop]
    exact SOK.trans (sok_isDuplicate ..) (sok_defaultArgLoop ..)
  | .mk pid (some ini) :: rest =>
    rw [defaultArgLoop]
    refine SOK.trans ?_ (sok_defaultArgLoop ..)
    refine SOK.trans (sok_isDuplicate pid true st) ?_
    split
    · exact SOK.refl _
    · exact sok_createDefaultArgumentInitScope ..
termination_by 32 * msizeParams params + 13
decreasing_by
  all_goals try simp only [msizeParams, msizeParam]
  all_goals omega

theorem sok_createDefaultArgumentInitScope (pid : Nat) (ini : Expr)
    (p : Nat) (st : St) :
    SOK st (createDefaultArgumentInitScope pid ini p st) := by
  rw [createDefaultArgumentInitScope]
  exact SOK.trans (sok_addChild ..) (sok_visitExprM ..)
termination_by 32 * ini.msize + 12

theorem sok_visitTopLevelCodeDecl (id : Nat) (range : SrcRange)
    (body : Stmt) (p : Nat) (st : St) :
    SOK st (visitTopLevelCodeDecl id range body p st).2 := by
  rw [visitTopLevelCodeDecl]
  exact SOK.trans (sok_addChild ..) (sok_createBraceStmtScope ..)
termination_by 32 * (body.msize + 1) + 15

theorem sok_visitExprM (e : Expr) (p : Nat) (st : St) :
    SOK st (visitExprM e p st).2 := by
  rw [visitExprM]
  exact SOK.trans (sok_widenAt ..) (sok_addChildrenForCapturesAndClosuresIn ..)
termination_by 32 * e.msize + 9

theorem sok_addChildrenForCapturesAndClosuresIn (e : Expr) (p : Nat)
    (st : St) : SOK st (addChildrenForCapturesAndClosuresIn e p st) := by
  rw [addChildrenForCapturesAndClosuresIn]
  exact sok_processClosures ..
termination_by 32 * e.msize + 8
decreasing_by
  have h := sumPsize_forEachClosureIn e
  omega

theorem sok_processClosures (l : List FoundClosure) (p : Nat) (st : St) :
    SOK st (processClosures l p st) := by
  match l with
  | [] => rw [processClosures]; exact SOK.refl st
  | (cap, c) :: rest =>
    rw [processClosures]
    refine SOK.trans ?_ (sok_processClosures ..)
    refine SOK.trans (sok_isDuplicate c.cid true st) ?_
    split
    · exact SOK.refl _
    · exact sok_createWholeClosureScope ..
termination_by 32 * sumPsize l + 7
decreasing_by
  all_goals try simp only [sumPsize, List.foldr]
  all_goals omega

theorem sok_createWholeClosureScope (cap : Option CapData) (c : ClosureInfo)
    (p : Nat) (st : St) : SOK st (createWholeClosureScope cap c p st) := by
  cases cap with
  | none =>
    rw [createWholeClosureScope.eq_def]
    simp only []
    split
    · exact SOK.trans (sok_addChild ..)
        (SOK.trans (sok_addChild ..) (sok_createClosureBodyScope ..))
    · exact SOK.trans (sok_addChild ..) (sok_createClosureBodyScope ..)
  | some cd =>
    rw [createWholeClosureScope.eq_def]
    simp only []
    split
    · exact SOK.trans (sok_addChild ..)
        (SOK.trans (sok_createCaptureListScope ..)
          (SOK.trans (sok_addChild ..) (sok_createClosureBodyScope ..)))
    · exact SOK.trans (sok_addChild ..)
        (SOK.trans (sok_createCaptureListScope ..)
          (sok_createClosureBodyScope ..))
termination_by 32 * psize (cap, c) + 6
decreasing_by
  all_goals first
    | (cases cap <;> simp only [psize] <;> omega)
    | (simp only [psize]; omega)
    | omega

theorem sok_createCaptureListScope (cd : CapData) (p : Nat) (st : St) :
    SOK st (createCaptureListScope cd p st) := by
  rw [createCaptureListScope]
  exact SOK.trans (sok_addChild ..) (sok_capInitsLoop ..)
termination_by 32 * msizeLL cd.captures + 5

theorem sok_capInitsLoop (ll : List (List Expr)) (self : Nat) (st : St) :
    SOK st (capInitsLoop ll self st) := by
  cases ll with
  | nil => rw [capInitsLoop]; exact SOK.refl st
  | cons l rest =>
    rw [capInitsLoop]
    exact SOK.trans (sok_capInitsInner ..) (sok_capInitsLoop ..)
termination_by 32 * msizeLL ll + 4
decreasing_by
  all_goals try simp only [msizeLL]
  all_goals omega

theorem sok_capInitsInner (l : List Expr) (self : Nat) (st : St) :
    SOK st (capInitsInner l self st) := by
  cases l with
  | nil => rw [capInitsInner]; exact SOK.refl st
  | cons e es =>
    rw [capInitsInner]
    exact SOK.trans (sok_addChildrenForCapturesAndClosuresIn ..)
      (sok_capInitsInner ..)
termination_by 32 * msizeL l + 3
decreasing_by
  all_goals try simp only [msizeL]
  all_goals omega

theorem sok_createClosureBodyScope (c : ClosureInfo) (p : Nat) (st : St) :
    SOK st (createClosureBodyScope c p st) := by
  rw [createClosureBodyScope]
  exact SOK.trans (sok_addChild ..) (sok_createBraceStmtScope ..)
termination_by 32 * c.msize + 5
decreasing_by
  cases c with
  | mk cid crng cinl cbody =>
    simp only [ClosureInfo.msize, ClosureInfo.body]; omega

end

/-! ### General facts about the driver loops -/

theorem processNodes_append (a b : List ASTNode) (st : St) :
    processNodes (a ++ b) st = processNodes b (processNodes a st) := by
  induction a generalizing st with
  | nil => rw [processNodes]; rfl
  | cons n rest ih =>
    show processNodes (n :: (rest ++ b)) st = _
    rw [processNodes, processNodes, ih]

theorem addScopesToTree_eq_processNodes (l : List ASTNode) (st : St) :
    addScopesToTree l st = processNodes l st := by
  rw [addScopesToTree]
  split
  · next h =>
    rw [List.isEmpty_iff] at h
    subst h
    rw [processNodes]
  · rfl

theorem sok_addNewDeclsToTree (sf : SFState) :
    SOK sf.st (addNewDeclsToTree sf).st := by
  rw [addNewDeclsToTree]
  exact sok_addScopesToTree ..

/-! ### Claim theorems -/

/-- C10: statements and expressions are always candidates for scoping:
`shouldCreateScope` returns true for every non-null statement or
expression node, whatever its ranges or synthesis status; the
compiler-synthesized skip and the zero-width-range skip can only fire
for declarations (the latter only for pattern bindings) — a
declaration that is neither compiler-synthesized nor a pattern binding
is likewise always accepted. -/
theorem C10_stmts_and_exprs_always_candidates :
    (∀ s : Stmt, shouldCreateScope (some (.stmt s)) = true) ∧
    (∀ e : Expr, shouldCreateScope (some (.expr e)) = true) ∧
    (∀ d : Decl, d.isImplicit = false → d.isPatternBinding = false →
      shouldCreateScope (some (.decl d)) = true) := by
  refine ⟨fun s => rfl, fun e => rfl, fun d h1 h2 => ?_⟩
  simp [shouldCreateScope, h1, h2]

/-- Witness for C10 at concrete inputs: an implicit statement (an
implicit return would be one) and an implicit expression are accepted,
and so is a non-implicit import-like declaration. -/
theorem C10_stmts_and_exprs_always_candidates_witness :
    shouldCreateScope (some (.stmt (.otherStmt 3 none true))) = true ∧
    shouldCreateScope (some (.expr (.otherE 4 none true []))) = true ∧
    shouldCreateScope (some (.decl (.otherDecl 5 (some (2, 2)) false))) = true := by
  refine ⟨C10_stmts_and_exprs_always_candidates.1 _,
    C10_stmts_and_exprs_always_candidates.2.1 _,
    C10_stmts_and_exprs_always_candidates.2.2 _ (by decide) (by decide)⟩

/-- C7: degenerate-range policy.  A pattern binding whose start and end
source locations coincide is excluded from scope creation, while an
ordinary expression or statement carrying the same degenerate
zero-width range is still accepted. -/
theorem C7_degenerate_range_policy :
    (∀ (id : Nat) (r : SrcRange) (implicit : Bool) (entries : List PatternEntry),
      startEndEqual r = true →
      shouldCreateScope (some (.decl (.patternBinding id r implicit entries))) = false) ∧
    (∀ (id : Nat) (r : SrcRange) (implicit : Bool) (children : List WalkChild),
      startEndEqual r = true →
      shouldCreateScope (some (.expr (.otherE id r implicit children))) = true) ∧
    (∀ (id : Nat) (r : SrcRange) (implicit : Bool),
      startEndEqual r = true →
      shouldCreateScope (some (.stmt (.otherStmt id r implicit))) = true) := by
  refine ⟨fun id r implicit entries h => ?_, fun _ _ _ _ _ => rfl,
    fun _ _ _ _ => rfl⟩
  cases implicit with
  | true => simp [shouldCreateScope, Decl.isImplicit]
  | false =>
    simp [shouldCreateScope, Decl.isImplicit, Decl.isPatternBinding,
      Decl.declRange, h]

/-- Witness for C7 at the zero-width range `(5, 5)`: the pattern
binding is excluded, the expression and the statement are not. -/
theorem C7_degenerate_range_policy_witness :
    shouldCreateScope (some (.decl (.patternBinding 1 (some (5, 5)) false []))) = false ∧
    shouldCreateScope (some (.expr (.otherE 2 (some (5, 5)) false []))) = true ∧
    shouldCreateScope (some (.stmt (.otherStmt 3 (some (5, 5)) false))) = true :=
  ⟨C7_degenerate_range_policy.1 1 (some (5, 5)) false [] (by decide),
   C7_degenerate_range_policy.2.1 2 (some (5, 5)) false [] (by decide),
   C7_degenerate_range_policy.2.2 3 (some (5, 5)) false (by decide)⟩

/-- C8 counterexample: a compiler-synthesized declaration that HAS a
(valid, non-degenerate) source range is nonetheless skipped entirely —
`shouldCreateScope` rejects it and `createScopeFor` returns the parent
with the state untouched (no scope, no range-widening) — refuting the
claim that synthesized constructs with a source range always receive at
least ignore-but-widen treatment. -/
theorem C8_counterexample_implicit_decl_with_range_skipped :
    Decl.isImplicit (.otherDecl 7 (some (1, 5)) true) = true ∧
    (Decl.declRange (.otherDecl 7 (some (1, 5)) true)).isSome = true ∧
    shouldCreateScope (some (.decl (.otherDecl 7 (some (1, 5)) true))) = false ∧
    createScopeFor (some (.decl (.otherDecl 7 (some (1, 5)) true))) 0 initSt =
      (0, initSt) := by
  refine ⟨rfl, rfl, rfl, ?_⟩
  rw [createScopeFor.eq_def]
  simp [shouldCreateScope, Decl.isImplicit]

/-- C8 (amended): a declaration is skipped entirely — no scope and no
range-widening — whenever it is compiler-synthesized, whether or not it
has a source range; compiler-synthesized statements and expressions are
never skipped by `shouldCreateScope`. -/
theorem C8_amended_synthesized_skip_is_decl_only :
    (∀ (d : Decl) (p : Nat) (st : St), d.isImplicit = true →
      createScopeFor (some (.decl d)) p st = (p, st)) ∧
    (∀ s : Stmt, shouldCreateScope (some (.stmt s)) = true) ∧
    (∀ e : Expr, shouldCreateScope (some (.expr e)) = true) := by
  refine ⟨fun d p st h => ?_, fun s => rfl, fun e => rfl⟩
  rw [createScopeFor.eq_def]
  simp [shouldCreateScope, h]

/-- Witness for the amended C8: a synthesized declaration that has a
source range is dropped with the state unchanged, while synthesized
statements and expressions pass the filter. -/
theorem C8_amended_synthesized_skip_is_decl_only_witness :
    createScopeFor (some (.decl (.otherDecl 9 (some (2, 9)) true))) 0 initSt =
      (0, initSt) ∧
    shouldCreateScope (some (.stmt (.otherStmt 3 none true))) = true ∧
    shouldCreateScope (some (.expr (.closureE (.mk 4 none false (.brace 5 none false []))))) = true :=
  ⟨C8_amended_synthesized_skip_is_decl_only.1 _ 0 initSt (by decide),
   C8_amended_synthesized_skip_is_decl_only.2.1 _,
   C8_amended_synthesized_skip_is_decl_only.2.2 _⟩

/-- C4: block isolation.  Processing a brace statement hands the
following siblings back to the insertion point that was current before
the block: the `createSubtree<BraceStmtScope>` call returns the parent,
`visitBraceStmt` therefore returns the parent in either branch of its
conditional, and one iteration of the `addScopesToTree` loop over a
brace-statement sibling leaves the injection point unchanged — so the
next sibling's scope is attached directly under the pre-block insertion
point and is not nested under any scope created during the block's
processing. -/
theorem C4_block_isolation :
    (∀ (id : Nat) (r : SrcRange) (implicit : Bool) (elements : List ASTNode)
      (p : Nat) (st : St),
      (createBraceStmtScope (.brace id r implicit elements) p st).1 = p) ∧
    (∀ (id : Nat) (r : SrcRange) (implicit : Bool) (elements : List ASTNode)
      (p : Nat) (st : St),
      (visitBraceStmt (.brace id r implicit elements) p st).1 = p) ∧
    (∀ (id : Nat) (r : SrcRange) (implicit : Bool) (elements : List ASTNode)
      (st : St),
      (stepNode (.stmt (.brace id r implicit elements)) st).inj = st.inj) := by
  have h1 : ∀ (id : Nat) (r : SrcRange) (implicit : Bool)
      (elements : List ASTNode) (p : Nat) (st : St),
      (createBraceStmtScope (.brace id r implicit elements) p st).1 = p := by
    intro id r implicit elements p st
    rw [createBraceStmtScope]
  have h2 : ∀ (id : Nat) (r : SrcRange) (implicit : Bool)
      (elements : List ASTNode) (p : Nat) (st : St),
      (visitBraceStmt (.brace id r implicit elements) p st).1 = p := by
    intro id r implicit elements p st
    rw [visitBraceStmt]
    cases h : doISplitAScope (getNode
        (createBraceStmtScope (.brace id r implicit elements) p st).2 p).kind
    · simp
    · simp [h1]
  refine ⟨h1, h2, ?_⟩
  intro id r implicit elements st
  rw [stepNode]
  cases hg : (shouldThisNodeBeScopedWhenEncountered
      (.stmt (.brace id r implicit elements)) st).1
  · simp only [hg, Bool.false_eq_true, if_false]
    show (registerIfNew _ st).2.inj = st.inj
    exact registerIfNew_inj ..
  · simp only [hg, if_true]
    have hinj : (shouldThisNodeBeScopedWhenEncountered
        (.stmt (.brace id r implicit elements)) st).2.inj = st.inj := by
      show (registerIfNew _ st).2.inj = st.inj
      exact registerIfNew_inj ..
    rw [show ∀ st1 : St, (createScopeFor
        (some (.stmt (.brace id r implicit elements))) st1.inj st1).1 = st1.inj
      from ?_]
    · exact hinj
    · intro st1
      rw [createScopeFor.eq_def]
      simp only [shouldCreateScope, if_true]
      rw [visitStmt.eq_def]
      exact h2 ..

/-- C1: concrete evaluation of the generic-parameter path at the
failing input.  For a parameterized declaration (identity 10) with two
generic parameters (identities 1 and 2), `createGenericParamScopes`
creates the two `GenericParamScope` nodes as *siblings* — both children
of the original parent 0 — and returns the original parent 0 as the
insertion point: because `NO_EXPANSION(GenericParamScope)` makes
`expandMe` (and hence `createSubtree<GenericParamScope>`) return the
parent, the loop's `s` never advances.  This contradicts the claim
(and the function's own "matryoshka nested … return the furthest
descendant" comment) that each generic parameter's scope becomes the
insertion point nesting its successors. -/
theorem C1_generic_param_scopes_are_flat_siblings :
    (createGenericParamScopes 10 [1, 2] 0 initSt).1 = 0 ∧
    (getNode (createGenericParamScopes 10 [1, 2] 0 initSt).2 1).kind =
      .genericParamScope 10 0 ∧
    (getNode (createGenericParamScopes 10 [1, 2] 0 initSt).2 1).parent = some 0 ∧
    (getNode (createGenericParamScopes 10 [1, 2] 0 initSt).2 2).kind =
      .genericParamScope 10 1 ∧
    (getNode (createGenericParamScopes 10 [1, 2] 0 initSt).2 2).parent = some 0 ∧
    (createGenericParamScope 0 10 0 initSt).1 = 0 := by
  decide

/-- C2: idempotent incremental extension.  Re-entering the tree with no
new declarations is a no-op (the unseen slice is empty); extending
after appending new declarations yields exactly the state — same nodes,
hence same node count and same derived ranges — of a one-pass build of
the full list, because `addScopesToTree` folds the siblings
left-to-right from the persisted injection point and duplicate set. -/
theorem C2_idempotent_extension :
    (∀ ds : List Decl,
      addNewDeclsToTree (createScopeTreeFor ds) = createScopeTreeFor ds) ∧
    (∀ ds es : List Decl,
      addNewDeclsToTree (appendDecls (createScopeTreeFor ds) es) =
        createScopeTreeFor (ds ++ es)) ∧
    (∀ sf : SFState, sf.seen = sf.decls.length → addNewDeclsToTree sf = sf) := by
  have hnoop : ∀ sf : SFState, sf.seen = sf.decls.length →
      addNewDeclsToTree sf = sf := by
    intro sf h
    cases sf with
    | mk decls seen st =>
      simp only at h
      rw [addNewDeclsToTree]
      simp only [h, List.drop_length, List.map_nil]
      rw [addScopesToTree]
      simp
  refine ⟨?_, ?_, hnoop⟩
  · intro ds
    apply hnoop
    rw [createScopeTreeFor, addNewDeclsToTree]
  · intro ds es
    rw [createScopeTreeFor, createScopeTreeFor, appendDecls]
    rw [addNewDeclsToTree, addNewDeclsToTree, addNewDeclsToTree]
    simp only [List.drop_zero, List.drop_left, List.map_append]
    rw [addScopesToTree_eq_processNodes, addScopesToTree_eq_processNodes,
      addScopesToTree_eq_processNodes, processNodes_append]

/-- Witness for C2: re-entering with the single declaration already
seen changes nothing. -/
theorem C2_idempotent_extension_witness :
    (1 : Nat) = [Decl.otherDecl 1 none false].length ∧
    addNewDeclsToTree ⟨[Decl.otherDecl 1 none false], 1, initSt⟩ =
      ⟨[Decl.otherDecl 1 none false], 1, initSt⟩ :=
  ⟨rfl, C2_idempotent_extension.2.2 ⟨[Decl.otherDecl 1 none false], 1, initSt⟩ rfl⟩

/-- The whole life of a compilation unit: an initial build over `ds`
followed by any number of parser appends, each folded in by
`addNewDeclsToTree`. -/
def buildAndExtend (ds : List Decl) (batches : List (List Decl)) : SFState :=
  batches.foldl (fun sf es => addNewDeclsToTree (appendDecls sf es))
    (createScopeTreeFor ds)

/-- C3: deduplication invariant.  (1) Across the initial build and any
number of re-entrant extensions, the ghost log of identities whose
insertion into the duplicate set succeeded — i.e. the identities that
were handed to scope creation when encountered — never repeats: for
every syntax-node identity at most one guarded scope creation ever
happens.  (2) Encountering an identity already in the duplicate set is
silently treated as already handled: the guard answers false with the
state unchanged, not an error.  (3) The insertion happens before
scoping: whenever the guard admits a node, its identity is already in
the duplicate set of the state the scoping proceeds in. -/
theorem C3_dedup_at_most_once :
    (∀ (ds : List Decl) (batches : List (List Decl)),
      (buildAndExtend ds batches).st.scopedLog.Nodup) ∧
    (∀ (n : ASTNode) (st : St), isHandledSpecially n = false →
      n.nodeId ∈ st.dups →
      shouldThisNodeBeScopedWhenEncountered n st = (false, st)) ∧
    (∀ (n : ASTNode) (st : St),
      (shouldThisNodeBeScopedWhenEncountered n st).1 = true →
      n.nodeId ∈ (shouldThisNodeBeScopedWhenEncountered n st).2.dups) := by
  refine ⟨?_, ?_, ?_⟩
  · intro ds batches
    have hinit : DupsLogInv initSt := ⟨List.nodup_nil, by intro x hx; cases hx⟩
    have hbuild : DupsLogInv (createScopeTreeFor ds).st :=
      (sok_addNewDeclsToTree _).log_inv hinit
    have hfold : ∀ (bs : List (List Decl)) (sf : SFState), DupsLogInv sf.st →
        DupsLogInv (bs.foldl
          (fun sf es => addNewDeclsToTree (appendDecls sf es)) sf).st := by
      intro bs
      induction bs with
      | nil => intro sf h; exact h
      | cons b rest ih =>
        intro sf h
        rw [List.foldl_cons]
        exact ih _ ((sok_addNewDeclsToTree _).log_inv h)
    exact (hfold batches _ hbuild).1
  · intro n st h1 h2
    rw [shouldThisNodeBeScopedWhenEncountered]
    rw [h1]
    simp only [Bool.false_eq_true, if_false]
    rw [registerIfNew]
    rw [if_pos h2]
  · intro n st h
    rw [shouldThisNodeBeScopedWhenEncountered] at h ⊢
    split at h
    · simp at h
    · split
      · simp_all
      · exact registerIfNew_mem_dups ..

/-! ### Source-range containment (spec-modelled ranges) -/

/-- `rangeSubB inner outer`: once the inner range is computed (valid),
it lies inside the outer one.  An invalid inner range is vacuously
contained; a valid inner range is never contained in an invalid
outer range. -/
def rangeSubB : SrcRange → SrcRange → Bool
  | none, _ => true
  | some _, none => false
  | some (a, b), some (c, d) => decide (c ≤ a ∧ b ≤ d)

theorem rangeSubB_trans {r1 r2 r3 : SrcRange}
    (h1 : rangeSubB r1 r2 = true) (h2 : rangeSubB r2 r3 = true) :
    rangeSubB r1 r3 = true := by
  cases r1 with
  | none => rfl
  | some ab1 =>
    cases r2 with
    | none => simp [rangeSubB] at h1
    | some ab2 =>
      cases r3 with
      | none => simp [rangeSubB] at h2
      | some ab3 =>
        obtain ⟨a1, b1⟩ := ab1
        obtain ⟨a2, b2⟩ := ab2
        obtain ⟨a3, b3⟩ := ab3
        simp [rangeSubB] at h1 h2 ⊢
        omega

theorem rangeSubB_hull_left (r s : SrcRange) : rangeSubB r (hull r s) = true := by
  cases r with
  | none => rfl
  | some ab =>
    obtain ⟨a, b⟩ := ab
    cases s with
    | none => simp [hull, rangeSubB]
    | some cd =>
      obtain ⟨c, d⟩ := cd
      simp [hull, rangeSubB]

theorem rangeSubB_hull_right (r s : SrcRange) : rangeSubB s (hull r s) = true := by
  cases s with
  | none => rfl
  | some cd =>
    obtain ⟨c, d⟩ := cd
    cases r with
    | none => simp [hull, rangeSubB]
    | some ab =>
      obtain ⟨a, b⟩ := ab
      simp [hull, rangeSubB]

theorem rangeSubB_hullList_of_mem {r : SrcRange} {l : List SrcRange}
    (h : r ∈ l) : rangeSubB r (hullList l) = true := by
  induction l with
  | nil => cases h
  | cons x xs ih =>
    rw [List.mem_cons] at h
    show rangeSubB r (hull x (hullList xs)) = true
    rcases h with h | h
    · subst h; exact rangeSubB_hull_left ..
    · exact rangeSubB_trans (ih h) (rangeSubB_hull_right ..)

theorem rangeSubB_isSome {r s : SrcRange} (hv : r.isSome = true)
    (h : rangeSubB r s = true) : s.isSome = true := by
  cases r with
  | none => simp at hv
  | some ab =>
    cases s with
    | none => obtain ⟨a, b⟩ := ab; simp [rangeSubB] at h
    | some cd => rfl

theorem getNode_out_of_range (st : St) (i : Nat)
    (hi : ¬ i < st.nodes.length) : getNode st i = default := by
  unfold getNode
  rw [List.getD_eq_getElem?_getD, List.getElem?_eq_none (le_of_not_lt hi)]
  rfl

theorem scopeRangeGo_out_of_range (st : St) (i : Nat)
    (hi : ¬ i < st.nodes.length) :
    ∀ f, scopeRangeGo st f i = none := by
  intro f
  cases f with
  | zero => rfl
  | succ g =>
    rw [scopeRangeGo, getNode_out_of_range st i hi]
    rfl

/-- In a well-formed arena the fueled range computation is independent
of the fuel as soon as the fuel covers the remaining indices. -/
theorem scopeRangeGo_fuel (st : St) (hwf : WFidx st) :
    ∀ (k f1 f2 i : Nat), st.nodes.length - i = k →
      k ≤ f1 → k ≤ f2 → scopeRangeGo st f1 i = scopeRangeGo st f2 i := by
  intro k
  induction k using Nat.strong_induction_on with
  | _ k ih =>
    intro f1 f2 i hk h1 h2
    by_cases hi : i < st.nodes.length
    · have hk1 : 1 ≤ k := by omega
      obtain ⟨g1, rfl⟩ : ∃ g1, f1 = g1 + 1 := ⟨f1 - 1, by omega⟩
      obtain ⟨g2, rfl⟩ : ∃ g2, f2 = g2 + 1 := ⟨f2 - 1, by omega⟩
      rw [scopeRangeGo, scopeRangeGo]
      have hmap : (getNode st i).children.map (scopeRangeGo st g1) =
          (getNode st i).children.map (scopeRangeGo st g2) := by
        apply List.map_congr_left
        intro j hj
        have hb := hwf i hi j hj
        exact ih (st.nodes.length - j) (by omega) g1 g2 j rfl (by omega)
          (by omega)
      rw [hmap]
    · rw [scopeRangeGo_out_of_range st i hi, scopeRangeGo_out_of_range st i hi]

/-- The spec-modelled containment for one parent/child edge: if the
child's range is computed, it is contained in the parent's, and the
parent's is computed as well. -/
theorem scopeRange_child_sub (st : St) (hwf : WFidx st) (i j : Nat)
    (hj : j ∈ (getNode st i).children) :
    rangeSubB (scopeRange st j) (scopeRange st i) = true := by
  by_cases hi : i < st.nodes.length
  · have hb := hwf i hi j hj
    obtain ⟨g, hg⟩ : ∃ g, st.nodes.length = g + 1 := ⟨st.nodes.length - 1, by omega⟩
    have hmem : scopeRangeGo st g j ∈
        ((getNode st i).ownRange ::
          ((getNode st i).widened ++ (getNode st i).children.map (scopeRangeGo st g))) := by
      simp only [List.mem_cons, List.mem_append]
      exact Or.inr (Or.inr (List.mem_map_of_mem _ hj))
    have hrange : scopeRange st i =
        hullList ((getNode st i).ownRange ::
          ((getNode st i).widened ++ (getNode st i).children.map (scopeRangeGo st g))) := by
      rw [scopeRange, hg, scopeRangeGo]
    have hfuel : scopeRangeGo st g j = scopeRange st j := by
      rw [scopeRange]
      exact scopeRangeGo_fuel st hwf (st.nodes.length - j) g st.nodes.length j
        rfl (by omega) (by omega)
    rw [hrange, ← hfuel]
    exact rangeSubB_hullList_of_mem hmem
  · have : (getNode st i).children = [] := by
      rw [getNode_out_of_range st i hi]; rfl
    rw [this] at hj
    cases hj

/-- Descendant relation along parent-to-child edges. -/
inductive ChildPath (st : St) : Nat → Nat → Prop
  | single {i j : Nat} : j ∈ (getNode st i).children → ChildPath st i j
  | cons {i j k : Nat} : j ∈ (getNode st i).children → ChildPath st j k →
      ChildPath st i k

/-- C6: range-containment invariant.  The tree states reached by the
public operations (initial build plus any sequence of incremental
extensions) are well-formed, and in every well-formed state the derived
source range of a scope contains the derived source range of each of
its children — and hence of every descendant — whenever those are
computed (valid); the parent's range is then computed as well.
Ranges are the spec-modelled `scopeRange` (the caching layer lives
outside the analysed file). -/
theorem C6_range_containment :
    (∀ (ds : List Decl) (batches : List (List Decl)),
      WFidx (buildAndExtend ds batches).st) ∧
    (∀ st : St, WFidx st → ∀ i j, j ∈ (getNode st i).children →
      (scopeRange st j).isSome = true →
      (scopeRange st i).isSome = true ∧
      rangeSubB (scopeRange st j) (scopeRange st i) = true) ∧
    (∀ st : St, WFidx st → ∀ i j, ChildPath st i j →
      (scopeRange st j).isSome = true →
      rangeSubB (scopeRange st j) (scopeRange st i) = true) := by
  refine ⟨?_, ?_, ?_⟩
  · intro ds batches
    have hinit : WFidx initSt := by decide
    have hbuild : WFidx (createScopeTreeFor ds).st :=
      (sok_addNewDeclsToTree _).wf hinit
    have hfold : ∀ (bs : List (List Decl)) (sf : SFState), WFidx sf.st →
        WFidx (bs.foldl
          (fun sf es => addNewDeclsToTree (appendDecls sf es)) sf).st := by
      intro bs
      induction bs with
      | nil => intro sf h; exact h
      | cons b rest ih =>
        intro sf h
        rw [List.foldl_cons]
        exact ih _ ((sok_addNewDeclsToTree _).wf h)
    exact hfold batches _ hbuild
  · intro st hwf i j hj hv
    have h := scopeRange_child_sub st hwf i j hj
    exact ⟨rangeSubB_isSome hv h, h⟩
  · intro st hwf i j hpath
    induction hpath with
    | single hj => intro hv; exact scopeRange_child_sub st hwf _ _ hj
    | cons hj _ ih =>
      intro hv
      have h2 := ih hv
      have h1 := scopeRange_child_sub st hwf _ _ hj
      exact rangeSubB_trans h2 h1

/-- Witness for C6 on a concrete well-formed two-node arena: the child
range `(2, 5)` is contained in the parent's computed range. -/
theorem C6_range_containment_witness :
    WFidx (St.mk [Scope.mk .sourceFile none [1] (some (0, 10)) [] none,
      Scope.mk (.braceStmtScope 3) (some 0) [] (some (2, 5)) [] none] [] [] 0) ∧
    (1 : Nat) ∈ (getNode (St.mk [Scope.mk .sourceFile none [1] (some (0, 10)) [] none,
      Scope.mk (.braceStmtScope 3) (some 0) [] (some (2, 5)) [] none] [] [] 0) 0).children ∧
    (scopeRange (St.mk [Scope.mk .sourceFile none [1] (some (0, 10)) [] none,
      Scope.mk (.braceStmtScope 3) (some 0) [] (some (2, 5)) [] none] [] [] 0) 1).isSome = true ∧
    (scopeRange (St.mk [Scope.mk .sourceFile none [1] (some (0, 10)) [] none,
      Scope.mk (.braceStmtScope 3) (some 0) [] (some (2, 5)) [] none] [] [] 0) 0).isSome = true ∧
    rangeSubB
      (scopeRange (St.mk [Scope.mk .sourceFile none [1] (some (0, 10)) [] none,
        Scope.mk (.braceStmtScope 3) (some 0) [] (some (2, 5)) [] none] [] [] 0) 1)
      (scopeRange (St.mk [Scope.mk .sourceFile none [1] (some (0, 10)) [] none,
        Scope.mk (.braceStmtScope 3) (some 0) [] (some (2, 5)) [] none] [] [] 0) 0) = true := by
  refine ⟨by decide, by decide, by decide, ?_, ?_⟩
  · exact (C6_range_containment.2.1 _ (by decide) 0 1 (by decide) (by decide)).1
  · exact (C6_range_containment.2.1 _ (by decide) 0 1 (by decide) (by decide)).2

/-! ### Pattern-entry chaining -/

/-- A step never removes a child edge that already exists. -/
theorem SOK.mem_children {s t : St} (h : SOK s t) {i j : Nat}
    (hi : i < s.nodes.length) (hj : j ∈ (getNode s i).children) :
    j ∈ (getNode t i).children := by
  obtain ⟨l, hl⟩ := h.children_ext i hi
  rw [hl]
  exact List.mem_append_left _ hj

/-- Parent-to-child paths compose. -/
theorem ChildPath.comp {st : St} {i j : Nat} (h1 : ChildPath st i j) :
    ∀ {k : Nat}, ChildPath st j k → ChildPath st i k := by
  induction h1 with
  | single h => intro k h2; exact .cons h h2
  | cons h _ ih => intro k h2; exact .cons h (ih h2)

/-- Shape of `createSubtree<PatternEntryUseScope>`: it returns the
fresh `PatternEntryUseScope` node, created as a child of `d`. -/
theorem createPatternEntryUseScope_spec (declId : Nat) (declRange : SrcRange)
    (vis : Vis) (i : Nat) (vars : List VarInfo) (initEnd : Option Nat)
    (d : Nat) (m : St) (hd : d < m.nodes.length) :
    (createPatternEntryUseScope declId declRange vis i vars initEnd d m).1 =
      m.nodes.length ∧
    m.nodes.length <
      (createPatternEntryUseScope declId declRange vis i vars initEnd d m).2.nodes.length ∧
    (getNode (createPatternEntryUseScope declId declRange vis i vars initEnd d m).2
      m.nodes.length).kind = .patternEntryUseScope declId i vis initEnd ∧
    m.nodes.length ∈
      (getNode (createPatternEntryUseScope declId declRange vis i vars initEnd d m).2
        d).children := by
  have hsok := sok_varLoop m.nodes.length vars
    (addChild d (.patternEntryUseScope declId i vis initEnd) declRange m).2
  have hlen : (addChild d (.patternEntryUseScope declId i vis initEnd)
      declRange m).2.nodes.length = m.nodes.length + 1 := addChild_len ..
  refine ⟨rfl, ?_, ?_, ?_⟩
  · show m.nodes.length < (varLoop m.nodes.length vars
      (addChild d (.patternEntryUseScope declId i vis initEnd) declRange m).2).nodes.length
    have h := hsok.len_le
    omega
  · show (getNode (varLoop m.nodes.length vars
      (addChild d (.patternEntryUseScope declId i vis initEnd) declRange m).2)
        m.nodes.length).kind = _
    rw [hsok.kind_eq m.nodes.length (by omega), getNode_addChild_new]
  · show m.nodes.length ∈ (getNode (varLoop m.nodes.length vars
      (addChild d (.patternEntryUseScope declId i vis initEnd) declRange m).2)
        d).children
    refine hsok.mem_children (by omega) ?_
    rw [getNode_addChild_old d _ _ m d hd]
    simp

/-- Common tail of `createSubtree<PatternEntryDeclScope>`: the decl
scope is the fresh child of `p` at index `st.nodes.length`, `m` is the
state after the optional initializer subtree, and the use scope —
child of the decl scope — is returned. -/
theorem patternEntryDeclScope_core (declId : Nat) (declRange : SrcRange)
    (vis : Vis) (i : Nat) (vars : List VarInfo) (initEnd : Option Nat)
    (p : Nat) (st m : St) (hp : p < st.nodes.length)
    (hm : SOK (addChild p (.patternEntryDeclScope declId i vis) declRange st).2 m) :
    st.nodes.length ∈
      (getNode (createPatternEntryUseScope declId declRange vis i vars initEnd
        st.nodes.length m).2 p).children ∧
    (getNode (createPatternEntryUseScope declId declRange vis i vars initEnd
      st.nodes.length m).2 st.nodes.length).kind =
        .patternEntryDeclScope declId i vis ∧
    (createPatternEntryUseScope declId declRange vis i vars initEnd
      st.nodes.length m).1 ∈
      (getNode (createPatternEntryUseScope declId declRange vis i vars initEnd
        st.nodes.length m).2 st.nodes.length).children ∧
    st.nodes.length < (createPatternEntryUseScope declId declRange vis i vars initEnd
      st.nodes.length m).1 ∧
    (createPatternEntryUseScope declId declRange vis i vars initEnd
      st.nodes.length m).1 <
      (createPatternEntryUseScope declId declRange vis i vars initEnd
        st.nodes.length m).2.nodes.length ∧
    (getNode (createPatternEntryUseScope declId declRange vis i vars initEnd
      st.nodes.length m).2
      (createPatternEntryUseScope declId declRange vis i vars initEnd
        st.nodes.length m).1).kind = .patternEntryUseScope declId i vis initEnd := by
  have hlen1 : (addChild p (.patternEntryDeclScope declId i vis)
      declRange st).2.nodes.length = st.nodes.length + 1 := addChild_len ..
  have hd_m : st.nodes.length < m.nodes.length := by
    have h := hm.len_le
    omega
  have hp_m : p < m.nodes.length := by omega
  obtain ⟨hu1, hu2, hu3, hu4⟩ := createPatternEntryUseScope_spec declId declRange
    vis i vars initEnd st.nodes.length m hd_m
  have hsokU : SOK m (createPatternEntryUseScope declId declRange vis i vars
      initEnd st.nodes.length m).2 := sok_createPatternEntryUseScope ..
  have hmem1 : st.nodes.length ∈
      (getNode (addChild p (.patternEntryDeclScope declId i vis) declRange st).2
        p).children := by
    rw [getNode_addChild_old p _ _ st p hp]
    simp
  refine ⟨?_, ?_, ?_, ?_, ?_, ?_⟩
  · exact hsokU.mem_children hp_m (hm.mem_children (by omega) hmem1)
  · rw [hsokU.kind_eq st.nodes.length hd_m, hm.kind_eq st.nodes.length (by omega),
      getNode_addChild_new]
  · rw [hu1]; exact hu4
  · rw [hu1]; exact hd_m
  · rw [hu1]; exact hu2
  · rw [hu1]; exact hu3

/-- Shape of one entry step of `visitPatternBindingDecl`: processing
entry `i` at insertion point `p` creates a `PatternEntryDeclScope` as a
child of `p` and returns its fresh `PatternEntryUseScope` child as the
new insertion point. -/
theorem createPatternEntryDeclScope_spec (declId : Nat) (declRange : SrcRange)
    (vis : Vis) (i : Nat) (e : PatternEntry) (p : Nat) (st : St)
    (hp : p < st.nodes.length) :
    st.nodes.length ∈
      (getNode (createPatternEntryDeclScope declId declRange vis i e p st).2
        p).children ∧
    (getNode (createPatternEntryDeclScope declId declRange vis i e p st).2
      st.nodes.length).kind = .patternEntryDeclScope declId i vis ∧
    (createPatternEntryDeclScope declId declRange vis i e p st).1 ∈
      (getNode (createPatternEntryDeclScope declId declRange vis i e p st).2
        st.nodes.length).children ∧
    st.nodes.length < (createPatternEntryDeclScope declId declRange vis i e p st).1 ∧
    (createPatternEntryDeclScope declId declRange vis i e p st).1 <
      (createPatternEntryDeclScope declId declRange vis i e p st).2.nodes.length ∧
    (∃ initEnd, (getNode (createPatternEntryDeclScope declId declRange vis i e p st).2
      (createPatternEntryDeclScope declId declRange vis i e p st).1).kind =
        .patternEntryUseScope declId i vis initEnd) := by
  cases e with
  | mk iaw vars =>
    cases iaw with
    | none =>
      have heq : createPatternEntryDeclScope declId declRange vis i
          (.mk none vars) p st =
          createPatternEntryUseScope declId declRange vis i vars none
            (addChild p (.patternEntryDeclScope declId i vis) declRange st).1
            (addChild p (.patternEntryDeclScope declId i vis) declRange st).2 := by
        rw [createPatternEntryDeclScope]
      rw [heq]
      obtain ⟨h1, h2, h3, h4, h5, h6⟩ := patternEntryDeclScope_core declId
        declRange vis i vars none p st _ hp (SOK.refl _)
      exact ⟨h1, h2, h3, h4, h5, none, h6⟩
    | some ini =>
      have heq : createPatternEntryDeclScope declId declRange vis i
          (.mk (some ini) vars) p st =
          if ini.exprRange.isSome = true then
            createPatternEntryUseScope declId declRange vis i vars
              (scopeRangeEnd
                (createPatternEntryInitScope declId i vis ini
                  (addChild p (.patternEntryDeclScope declId i vis) declRange st).1
                  (addChild p (.patternEntryDeclScope declId i vis) declRange st).2).2
                (createPatternEntryInitScope declId i vis ini
                  (addChild p (.patternEntryDeclScope declId i vis) declRange st).1
                  (addChild p (.patternEntryDeclScope declId i vis) declRange st).2).1)
              (addChild p (.patternEntryDeclScope declId i vis) declRange st).1
              (createPatternEntryInitScope declId i vis ini
                (addChild p (.patternEntryDeclScope declId i vis) declRange st).1
                (addChild p (.patternEntryDeclScope declId i vis) declRange st).2).2
          else
            createPatternEntryUseScope declId declRange vis i vars none
              (addChild p (.patternEntryDeclScope declId i vis) declRange st).1
              (addChild p (.patternEntryDeclScope declId i vis) declRange st).2 := by
        rw [createPatternEntryDeclScope]
      rw [heq]
      by_cases hr : ini.exprRange.isSome = true
      · rw [if_pos hr]
        obtain ⟨h1, h2, h3, h4, h5, h6⟩ := patternEntryDeclScope_core declId
          declRange vis i vars
          (scopeRangeEnd
            (createPatternEntryInitScope declId i vis ini
              (addChild p (.patternEntryDeclScope declId i vis) declRange st).1
              (addChild p (.patternEntryDeclScope declId i vis) declRange st).2).2
            (createPatternEntryInitScope declId i vis ini
              (addChild p (.patternEntryDeclScope declId i vis) declRange st).1
              (addChild p (.patternEntryDeclScope declId i vis) declRange st).2).1)
          p st _ hp (sok_createPatternEntryInitScope ..)
        exact ⟨h1, h2, h3, h4, h5, _, h6⟩
      · rw [if_neg hr]
        obtain ⟨h1, h2, h3, h4, h5, h6⟩ := patternEntryDeclScope_core declId
          declRange vis i vars none p st _ hp (SOK.refl _)
        exact ⟨h1, h2, h3, h4, h5, none, h6⟩

/-- The entry loop chains: for a nonempty entry list the returned
insertion point is a strict descendant of the incoming one, reached
along the per-entry continuation scopes. -/
theorem patternEntriesLoop_spec (declId : Nat) (declRange : SrcRange)
    (vis : Vis) :
    ∀ (entries : List PatternEntry) (i ip : Nat) (st : St),
      ip < st.nodes.length →
      (patternEntriesLoop declId declRange vis i entries ip st).1 <
        (patternEntriesLoop declId declRange vis i entries ip st).2.nodes.length ∧
      (entries ≠ [] →
        ChildPath (patternEntriesLoop declId declRange vis i entries ip st).2 ip
          (patternEntriesLoop declId declRange vis i entries ip st).1 ∧
        ip < (patternEntriesLoop declId declRange vis i entries ip st).1) := by
  intro entries
  induction entries with
  | nil =>
    intro i ip st hip
    rw [patternEntriesLoop]
    exact ⟨hip, fun h => absurd rfl h⟩
  | cons e rest ih =>
    intro i ip st hip
    have heq : patternEntriesLoop declId declRange vis i (e :: rest) ip st =
        patternEntriesLoop declId declRange vis (i + 1) rest
          (createPatternEntryDeclScope declId declRange vis i e ip st).1
          (createPatternEntryDeclScope declId declRange vis i e ip st).2 := by
      rw [patternEntriesLoop]
    rw [heq]
    obtain ⟨h1, h2, h3, h4, h5, h6⟩ := createPatternEntryDeclScope_spec declId
      declRange vis i e ip st hip
    have hnext := ih (i + 1)
      (createPatternEntryDeclScope declId declRange vis i e ip st).1
      (createPatternEntryDeclScope declId declRange vis i e ip st).2 h5
    refine ⟨hnext.1, fun _ => ?_⟩
    by_cases hr : rest = []
    · subst hr
      rw [patternEntriesLoop]
      exact ⟨ChildPath.cons h1 (ChildPath.single h3), by omega⟩
    · obtain ⟨hpath, hlt⟩ := hnext.2 hr
      have hs : SOK (createPatternEntryDeclScope declId declRange vis i e ip st).2
          (patternEntriesLoop declId declRange vis (i + 1) rest
            (createPatternEntryDeclScope declId declRange vis i e ip st).1
            (createPatternEntryDeclScope declId declRange vis i e ip st).2).2 :=
        sok_patternEntriesLoop ..
      refine ⟨ChildPath.comp ?_ hpath, by omega⟩
      exact ChildPath.cons (hs.mem_children (by omega) h1)
        (ChildPath.single (hs.mem_children (by omega) h3))

/-- C5: type-body versus block chaining.  (1) The entry loop of
`visitPatternBindingDecl` threads each entry's continuation scope as
the insertion point for the next entry, so entry `i+1`'s scope is
created under entry `i`'s continuation.  (2) Each entry step returns
the fresh `PatternEntryUseScope`, a strict descendant of the incoming
insertion point.  (3) When the parent scope is a type-declaration or
extension scope, `visitPatternBindingDecl` discards the chain and
returns the original parent.  (4) Otherwise it returns the last
entry's continuation, which for a nonempty entry list is a strict
descendant of the original parent. -/
theorem C5_type_body_vs_block_chaining :
    (∀ (declId : Nat) (declRange : SrcRange) (vis : Vis) (i : Nat)
        (e : PatternEntry) (rest : List PatternEntry) (ip : Nat) (st : St),
      patternEntriesLoop declId declRange vis i (e :: rest) ip st =
        patternEntriesLoop declId declRange vis (i + 1) rest
          (createPatternEntryDeclScope declId declRange vis i e ip st).1
          (createPatternEntryDeclScope declId declRange vis i e ip st).2) ∧
    (∀ (declId : Nat) (declRange : SrcRange) (vis : Vis) (i : Nat)
        (e : PatternEntry) (ip : Nat) (st : St), ip < st.nodes.length →
      ChildPath (createPatternEntryDeclScope declId declRange vis i e ip st).2 ip
        (createPatternEntryDeclScope declId declRange vis i e ip st).1 ∧
      ip < (createPatternEntryDeclScope declId declRange vis i e ip st).1 ∧
      ∃ initEnd,
        (getNode (createPatternEntryDeclScope declId declRange vis i e ip st).2
          (createPatternEntryDeclScope declId declRange vis i e ip st).1).kind =
          .patternEntryUseScope declId i vis initEnd) ∧
    (∀ (pid : Nat) (range : SrcRange) (entries : List PatternEntry) (p : Nat)
        (st : St), isATypeDeclScope (getNode st p).kind = true →
      (visitPatternBindingDecl pid range entries p st).1 = p) ∧
    (∀ (pid : Nat) (range : SrcRange) (entries : List PatternEntry) (p : Nat)
        (st : St), p < st.nodes.length →
      isATypeDeclScope (getNode st p).kind = false →
      (visitPatternBindingDecl pid range entries p st).1 =
        (patternEntriesLoop pid range .localVariable 0 entries p
          (createAttachedPropertyWrapperScope entries p st)).1 ∧
      (entries ≠ [] →
        ChildPath (visitPatternBindingDecl pid range entries p st).2 p
          (visitPatternBindingDecl pid range entries p st).1 ∧
        p < (visitPatternBindingDecl pid range entries p st).1)) := by
  refine ⟨?_, ?_, ?_, ?_⟩
  · intro declId declRange vis i e rest ip st
    rw [patternEntriesLoop]
  · intro declId declRange vis i e ip st hip
    obtain ⟨h1, h2, h3, h4, h5, h6⟩ := createPatternEntryDeclScope_spec declId
      declRange vis i e ip st hip
    exact ⟨ChildPath.cons h1 (ChildPath.single h3), by omega, h6⟩
  · intro pid range entries p st htd
    have hp : p < st.nodes.length := by
      by_contra hcon
      rw [getNode_out_of_range st p hcon] at htd
      exact absurd htd (by decide)
    have hk : isATypeDeclScope
        (getNode (createAttachedPropertyWrapperScope entries p st) p).kind = true := by
      rw [(sok_createAttachedPropertyWrapperScope entries p st).kind_eq p hp]
      exact htd
    have heq : visitPatternBindingDecl pid range entries p st =
        (if isATypeDeclScope
            (getNode (createAttachedPropertyWrapperScope entries p st) p).kind = true
         then p
         else (patternEntriesLoop pid range
            (if isATypeDeclScope
                (getNode (createAttachedPropertyWrapperScope entries p st) p).kind = true
             then Vis.memberOfCurrentNominal else Vis.localVariable) 0 entries p
            (createAttachedPropertyWrapperScope entries p st)).1,
         (patternEntriesLoop pid range
            (if isATypeDeclScope
                (getNode (createAttachedPropertyWrapperScope entries p st) p).kind = true
             then Vis.memberOfCurrentNominal else Vis.localVariable) 0 entries p
            (createAttachedPropertyWrapperScope entries p st)).2) := by
      rw [visitPatternBindingDecl]
    rw [heq, if_pos hk]
  · intro pid range entries p st hp htd
    have hk : isATypeDeclScope
        (getNode (createAttachedPropertyWrapperScope entries p st) p).kind = false := by
      rw [(sok_createAttachedPropertyWrapperScope entries p st).kind_eq p hp]
      exact htd
    have hk2 : ¬ isATypeDeclScope
        (getNode (createAttachedPropertyWrapperScope entries p st) p).kind = true := by
      rw [hk]
      exact Bool.false_ne_true
    have heq : visitPatternBindingDecl pid range entries p st =
        (if isATypeDeclScope
            (getNode (createAttachedPropertyWrapperScope entries p st) p).kind = true
         then p
         else (patternEntriesLoop pid range
            (if isATypeDeclScope
                (getNode (createAttachedPropertyWrapperScope entries p st) p).kind = true
             then Vis.memberOfCurrentNominal else Vis.localVariable) 0 entries p
            (createAttachedPropertyWrapperScope entries p st)).1,
         (patternEntriesLoop pid range
            (if isATypeDeclScope
                (getNode (createAttachedPropertyWrapperScope entries p st) p).kind = true
             then Vis.memberOfCurrentNominal else Vis.localVariable) 0 entries p
            (createAttachedPropertyWrapperScope entries p st)).2) := by
      rw [visitPatternBindingDecl]
    rw [heq, if_neg hk2, if_neg hk2]
    have hp0 : p < (createAttachedPropertyWrapperScope entries p st).nodes.length :=
      lt_of_lt_of_le hp (sok_createAttachedPropertyWrapperScope entries p st).len_le
    have hloop := patternEntriesLoop_spec pid range .localVariable entries 0 p
      (createAttachedPropertyWrapperScope entries p st) hp0
    exact ⟨rfl, hloop.2⟩

/-- Witness for C5: inside a nominal-type body the original parent 0
is returned; inside the plain source-file scope the chain for one
entry yields a strict descendant of 0. -/
theorem C5_type_body_vs_block_chaining_witness :
    (isATypeDeclScope (getNode (St.mk
        [Scope.mk (.nominalTypeScope .whole 3) none [] none [] none] [] [] 0)
        0).kind = true ∧
      (visitPatternBindingDecl 7 none [PatternEntry.mk none []] 0 (St.mk
        [Scope.mk (.nominalTypeScope .whole 3) none [] none [] none] [] [] 0)).1 = 0) ∧
    (0 < initSt.nodes.length ∧
      isATypeDeclScope (getNode initSt 0).kind = false ∧
      [PatternEntry.mk none []] ≠ ([] : List PatternEntry) ∧
      ChildPath (visitPatternBindingDecl 7 none [PatternEntry.mk none []] 0 initSt).2 0
        (visitPatternBindingDecl 7 none [PatternEntry.mk none []] 0 initSt).1 ∧
      0 < (visitPatternBindingDecl 7 none [PatternEntry.mk none []] 0 initSt).1) :=
  ⟨⟨by decide,
    C5_type_body_vs_block_chaining.2.2.1 7 none [PatternEntry.mk none []] 0
      (St.mk [Scope.mk (.nominalTypeScope .whole 3) none [] none [] none] [] [] 0)
      (by decide)⟩,
   by decide, by decide, List.cons_ne_nil _ _,
   ((C5_type_body_vs_block_chaining.2.2.2 7 none [PatternEntry.mk none []] 0 initSt
      (by decide) (by decide)).2 (List.cons_ne_nil _ _)).1,
   ((C5_type_body_vs_block_chaining.2.2.2 7 none [PatternEntry.mk none []] 0 initSt
      (by decide) (by decide)).2 (List.cons_ne_nil _ _)).2⟩

/-! ### The restricted closure sub-walk -/

mutual

/-- Modelled from the spec: a closure occurrence of an expression that
is not nested inside another closure of that expression and is
reachable without crossing a nested declaration, pattern,
type-representation or parameter-list boundary (descending into nested
brace statements only far enough to find directly nested closures).
The closure and capture-list cases deliberately have no recursive
constructor: nothing inside a found closure's interior qualifies. -/
inductive TopLevelClosureSpec : Expr → FoundClosure → Prop
  | closure (c : ClosureInfo) : TopLevelClosureSpec (.closureE c) (none, c)
  | captureList (cid2 : Nat) (r : SrcRange) (inits : List (List Expr))
      (cb : ClosureInfo) :
      TopLevelClosureSpec (.captureListE cid2 r inits cb) (some ⟨cid2, inits⟩, cb)
  | inChildExpr {eid : Nat} {r : SrcRange} {imp : Bool}
      {children : List WalkChild} {e : Expr} {fc : FoundClosure} :
      WalkChild.ex e ∈ children → TopLevelClosureSpec e fc →
      TopLevelClosureSpec (.otherE eid r imp children) fc
  | inChildStmt {eid : Nat} {r : SrcRange} {imp : Bool}
      {children : List WalkChild} {s : Stmt} {fc : FoundClosure} :
      WalkChild.st s ∈ children → TopLevelStmtClosureSpec s fc →
      TopLevelClosureSpec (.otherE eid r imp children) fc

/-- Modelled from the spec: the statement side of
`TopLevelClosureSpec` — only brace statements are looked into. -/
inductive TopLevelStmtClosureSpec : Stmt → FoundClosure → Prop
  | inBraceExpr {bid : Nat} {r : SrcRange} {imp : Bool}
      {elements : List ASTNode} {e : Expr} {fc : FoundClosure} :
      ASTNode.expr e ∈ elements → TopLevelClosureSpec e fc →
      TopLevelStmtClosureSpec (.brace bid r imp elements) fc
  | inBraceStmt {bid : Nat} {r : SrcRange} {imp : Bool}
      {elements : List ASTNode} {s : Stmt} {fc : FoundClosure} :
      ASTNode.stmt s ∈ elements → TopLevelStmtClosureSpec s fc →
      TopLevelStmtClosureSpec (.brace bid r imp elements) fc

end

mutual

/-- The walker reports exactly the spec-side top-level closures. -/
theorem mem_forEachClosureIn_iff (e : Expr) (fc : FoundClosure) :
    fc ∈ forEachClosureIn e ↔ TopLevelClosureSpec e fc := by
  cases e with
  | closureE c =>
    rw [forEachClosureIn]
    constructor
    · intro h
      rw [List.mem_singleton] at h
      subst h
      exact .closure c
    · intro h
      cases h
      exact List.mem_singleton.mpr rfl
  | captureListE cid2 r inits cb =>
    rw [forEachClosureIn]
    constructor
    · intro h
      rw [List.mem_singleton] at h
      subst h
      exact .captureList cid2 r inits cb
    · intro h
      cases h
      exact List.mem_singleton.mpr rfl
  | otherE eid r imp children =>
    rw [forEachClosureIn, mem_closuresInChildren_iff children fc]
    constructor
    · rintro (⟨e2, he2, hs⟩ | ⟨s2, hs2, hss⟩)
      · exact .inChildExpr he2 hs
      · exact .inChildStmt hs2 hss
    · intro h
      cases h with
      | inChildExpr he2 hs => exact Or.inl ⟨_, he2, hs⟩
      | inChildStmt hs2 hss => exact Or.inr ⟨_, hs2, hss⟩
termination_by 32 * e.msize + 1
decreasing_by
  all_goals simp_wf
  all_goals try simp only [Expr.msize, Stmt.msize, ClosureInfo.msize,
    msizeChildren, msizeElements, msizeNode]
  all_goals omega

/-- Child-list stage of the walk: a closure is reported from a child
list exactly when it is a top-level closure of an expression child or
of a (brace) statement child; declaration, pattern, type-representation
and parameter-list children contribute nothing. -/
theorem mem_closuresInChildren_iff (l : List WalkChild) (fc : FoundClosure) :
    fc ∈ closuresInChildren l ↔
      (∃ e, WalkChild.ex e ∈ l ∧ TopLevelClosureSpec e fc) ∨
      (∃ s, WalkChild.st s ∈ l ∧ TopLevelStmtClosureSpec s fc) := by
  cases l with
  | nil =>
    rw [closuresInChildren]
    simp
  | cons head rest =>
    cases head with
    | ex e =>
      rw [closuresInChildren, List.mem_append, mem_forEachClosureIn_iff e fc,
        mem_closuresInChildren_iff rest fc]
      constructor
      · rintro (h | (⟨e2, he2, hs⟩ | ⟨s2, hs2, hss⟩))
        · exact Or.inl ⟨e, List.mem_cons_self _ _, h⟩
        · exact Or.inl ⟨e2, List.mem_cons_of_mem _ he2, hs⟩
        · exact Or.inr ⟨s2, List.mem_cons_of_mem _ hs2, hss⟩
      · rintro (⟨e2, he2, hs⟩ | ⟨s2, hs2, hss⟩)
        · rcases List.mem_cons.mp he2 with h | h
          · injection h with h2
            subst h2
            exact Or.inl hs
          · exact Or.inr (Or.inl ⟨e2, h, hs⟩)
        · rcases List.mem_cons.mp hs2 with h | h
          · exact absurd h (by simp)
          · exact Or.inr (Or.inr ⟨s2, h, hss⟩)
    | st s =>
      rw [closuresInChildren, List.mem_append, mem_closuresInStmt_iff s fc,
        mem_closuresInChildren_iff rest fc]
      constructor
      · rintro (h | (⟨e2, he2, hs⟩ | ⟨s2, hs2, hss⟩))
        · exact Or.inr ⟨s, List.mem_cons_self _ _, h⟩
        · exact Or.inl ⟨e2, List.mem_cons_of_mem _ he2, hs⟩
        · exact Or.inr ⟨s2, List.mem_cons_of_mem _ hs2, hss⟩
      · rintro (⟨e2, he2, hs⟩ | ⟨s2, hs2, hss⟩)
        · rcases List.mem_cons.mp he2 with h | h
          · exact absurd h (by simp)
          · exact Or.inr (Or.inl ⟨e2, h, hs⟩)
        · rcases List.mem_cons.mp hs2 with h | h
          · injection h with h2
            subst h2
            exact Or.inl hss
          · exact Or.inr (Or.inr ⟨s2, h, hss⟩)
    | dec d =>
      rw [closuresInChildren, mem_closuresInChildren_iff rest fc]
      constructor
      · rintro (⟨e2, he2, hs⟩ | ⟨s2, hs2, hss⟩)
        · exact Or.inl ⟨e2, List.mem_cons_of_mem _ he2, hs⟩
        · exact Or.inr ⟨s2, List.mem_cons_of_mem _ hs2, hss⟩
      · rintro (⟨e2, he2, hs⟩ | ⟨s2, hs2, hss⟩)
        · rcases List.mem_cons.mp he2 with h | h
          · exact absurd h (by simp)
          · exact Or.inl ⟨e2, h, hs⟩
        · rcases List.mem_cons.mp hs2 with h | h
          · exact absurd h (by simp)
          · exact Or.inr ⟨s2, h, hss⟩
    | pat pid2 =>
      rw [closuresInChildren, mem_closuresInChildren_iff rest fc]
      constructor
      · rintro (⟨e2, he2, hs⟩ | ⟨s2, hs2, hss⟩)
        · exact Or.inl ⟨e2, List.mem_cons_of_mem _ he2, hs⟩
        · exact Or.inr ⟨s2, List.mem_cons_of_mem _ hs2, hss⟩
      · rintro (⟨e2, he2, hs⟩ | ⟨s2, hs2, hss⟩)
        · rcases List.mem_cons.mp he2 with h | h
          · exact absurd h (by simp)
          · exact Or.inl ⟨e2, h, hs⟩
        · rcases List.mem_cons.mp hs2 with h | h
          · exact absurd h (by simp)
          · exact Or.inr ⟨s2, h, hss⟩
    | typeRep tid =>
      rw [closuresInChildren, mem_closuresInChildren_iff rest fc]
      constructor
      · rintro (⟨e2, he2, hs⟩ | ⟨s2, hs2, hss⟩)
        · exact Or.inl ⟨e2, List.mem_cons_of_mem _ he2, hs⟩
        · exact Or.inr ⟨s2, List.mem_cons_of_mem _ hs2, hss⟩
      · rintro (⟨e2, he2, hs⟩ | ⟨s2, hs2, hss⟩)
        · rcases List.mem_cons.mp he2 with h | h
          · exact absurd h (by simp)
          · exact Or.inl ⟨e2, h, hs⟩
        · rcases List.mem_cons.mp hs2 with h | h
          · exact absurd h (by simp)
          · exact Or.inr ⟨s2, h, hss⟩
    | paramList plid =>
      rw [closuresInChildren, mem_closuresInChildren_iff rest fc]
      constructor
      · rintro (⟨e2, he2, hs⟩ | ⟨s2, hs2, hss⟩)
        · exact Or.inl ⟨e2, List.mem_cons_of_mem _ he2, hs⟩
        · exact Or.inr ⟨s2, List.mem_cons_of_mem _ hs2, hss⟩
      · rintro (⟨e2, he2, hs⟩ | ⟨s2, hs2, hss⟩)
        · rcases List.mem_cons.mp he2 with h | h
          · exact absurd h (by simp)
          · exact Or.inl ⟨e2, h, hs⟩
        · rcases List.mem_cons.mp hs2 with h | h
          · exact absurd h (by simp)
          · exact Or.inr ⟨s2, h, hss⟩
termination_by 32 * msizeChildren l
decreasing_by
  all_goals simp_wf
  all_goals try simp only [Expr.msize, Stmt.msize, ClosureInfo.msize,
    msizeChildren, msizeElements, msizeNode]
  all_goals omega

/-- Statement stage of the walk: only brace statements are looked
into; guard and other statements report nothing. -/
theorem mem_closuresInStmt_iff (s : Stmt) (fc : FoundClosure) :
    fc ∈ closuresInStmt s ↔ TopLevelStmtClosureSpec s fc := by
  cases s with
  | brace bid r imp elements =>
    rw [closuresInStmt, mem_closuresInElements_iff elements fc]
    constructor
    · rintro (⟨e2, he2, hs⟩ | ⟨s2, hs2, hss⟩)
      · exact .inBraceExpr he2 hs
      · exact .inBraceStmt hs2 hss
    · intro h
      cases h with
      | inBraceExpr he2 hs => exact Or.inl ⟨_, he2, hs⟩
      | inBraceStmt hs2 hss => exact Or.inr ⟨_, hs2, hss⟩
  | guardS gid r imp cond body endLoc =>
    rw [closuresInStmt]
    constructor
    · intro h
      exact absurd h (List.not_mem_nil _)
    · intro h
      cases h
  | otherStmt oid r imp =>
    rw [closuresInStmt]
    constructor
    · intro h
      exact absurd h (List.not_mem_nil _)
    · intro h
      cases h
termination_by 32 * s.msize + 1
decreasing_by
  all_goals simp_wf
  all_goals try simp only [Expr.msize, Stmt.msize, ClosureInfo.msize,
    msizeChildren, msizeElements, msizeNode]
  all_goals omega

/-- Brace-element stage of the walk: expression and statement elements
are walked, declaration elements are not. -/
theorem mem_closuresInElements_iff (els : List ASTNode) (fc : FoundClosure) :
    fc ∈ closuresInElements els ↔
      (∃ e, ASTNode.expr e ∈ els ∧ TopLevelClosureSpec e fc) ∨
      (∃ s, ASTNode.stmt s ∈ els ∧ TopLevelStmtClosureSpec s fc) := by
  cases els with
  | nil =>
    rw [closuresInElements]
    simp
  | cons head rest =>
    cases head with
    | expr e =>
      rw [closuresInElements, List.mem_append, mem_forEachClosureIn_iff e fc,
        mem_closuresInElements_iff rest fc]
      constructor
      · rintro (h | (⟨e2, he2, hs⟩ | ⟨s2, hs2, hss⟩))
        · exact Or.inl ⟨e, List.mem_cons_self _ _, h⟩
        · exact Or.inl ⟨e2, List.mem_cons_of_mem _ he2, hs⟩
        · exact Or.inr ⟨s2, List.mem_cons_of_mem _ hs2, hss⟩
      · rintro (⟨e2, he2, hs⟩ | ⟨s2, hs2, hss⟩)
        · rcases List.mem_cons.mp he2 with h | h
          · injection h with h2
            subst h2
            exact Or.inl hs
          · exact Or.inr (Or.inl ⟨e2, h, hs⟩)
        · rcases List.mem_cons.mp hs2 with h | h
          · exact absurd h (by simp)
          · exact Or.inr (Or.inr ⟨s2, h, hss⟩)
    | stmt s =>
      rw [closuresInElements, List.mem_append, mem_closuresInStmt_iff s fc,
        mem_closuresInElements_iff rest fc]
      constructor
      · rintro (h | (⟨e2, he2, hs⟩ | ⟨s2, hs2, hss⟩))
        · exact Or.inr ⟨s, List.mem_cons_self _ _, h⟩
        · exact Or.inl ⟨e2, List.mem_cons_of_mem _ he2, hs⟩
        · exact Or.inr ⟨s2, List.mem_cons_of_mem _ hs2, hss⟩
      · rintro (⟨e2, he2, hs⟩ | ⟨s2, hs2, hss⟩)
        · rcases List.mem_cons.mp he2 with h | h
          · exact absurd h (by simp)
          · exact Or.inr (Or.inl ⟨e2, h, hs⟩)
        · rcases List.mem_cons.mp hs2 with h | h
          · injection h with h2
            subst h2
            exact Or.inl hss
          · exact Or.inr (Or.inr ⟨s2, h, hss⟩)
    | decl d =>
      rw [closuresInElements, mem_closuresInElements_iff rest fc]
      constructor
      · rintro (⟨e2, he2, hs⟩ | ⟨s2, hs2, hss⟩)
        · exact Or.inl ⟨e2, List.mem_cons_of_mem _ he2, hs⟩
        · exact Or.inr ⟨s2, List.mem_cons_of_mem _ hs2, hss⟩
      · rintro (⟨e2, he2, hs⟩ | ⟨s2, hs2, hss⟩)
        · rcases List.mem_cons.mp he2 with h | h
          · exact absurd h (by simp)
          · exact Or.inl ⟨e2, h, hs⟩
        · rcases List.mem_cons.mp hs2 with h | h
          · exact absurd h (by simp)
          · exact Or.inr ⟨s2, h, hss⟩
termination_by 32 * msizeElements els
decreasing_by
  all_goals simp_wf
  all_goals try simp only [Expr.msize, Stmt.msize, ClosureInfo.msize,
    msizeChildren, msizeElements, msizeNode]
  all_goals omega

end

/-- Node facts survive any step. -/
theorem sok_node_facts {s t : St} (h : SOK s t) {w q : Nat} {k : SKind}
    {pr : Option Nat} (hw : w < s.nodes.length) (hq : q < s.nodes.length)
    (hk : (getNode s w).kind = k) (hpar : (getNode s w).parent = pr)
    (hmem : w ∈ (getNode s q).children) :
    (getNode t w).kind = k ∧ (getNode t w).parent = pr ∧
      w ∈ (getNode t q).children :=
  ⟨by rw [h.kind_eq w hw]; exact hk,
   by rw [h.parent_eq w hw]; exact hpar,
   h.mem_children hq hmem⟩

/-- The dedup-and-create loop on an unseen closure: register it, build
its whole-closure subtree, continue with the rest. -/
theorem processClosures_cons_new (cap : Option CapData) (c : ClosureInfo)
    (rest : List FoundClosure) (p : Nat) (st : St) (h : c.cid ∉ st.dups) :
    processClosures ((cap, c) :: rest) p st =
      processClosures rest p
        (createWholeClosureScope cap c p (isDuplicate c.cid true st).2) := by
  have hfalse : (isDuplicate c.cid true st).1 = false :=
    (isDuplicate_reg_false_iff c.cid st).mpr h
  have h1 : processClosures ((cap, c) :: rest) p st =
      processClosures rest p
        (if (isDuplicate c.cid true st).1 = true then (isDuplicate c.cid true st).2
         else createWholeClosureScope cap c p (isDuplicate c.cid true st).2) := by
    rw [processClosures]
  rw [h1, hfalse]
  simp

/-- Shape of `createSubtree<WholeClosureScope>`: the fresh
`WholeClosureScope` node is a child of `p`, carrying the capture-list
identity when present, and when a capture list is present the fresh
`CaptureListScope` node is its first child. -/
theorem createWholeClosureScope_spec (cap : Option CapData) (c : ClosureInfo)
    (p : Nat) (st : St) (hp : p < st.nodes.length) :
    st.nodes.length < (createWholeClosureScope cap c p st).nodes.length ∧
    (getNode (createWholeClosureScope cap c p st) st.nodes.length).kind =
      .wholeClosureScope (cap.map (·.id)) c.cid ∧
    (getNode (createWholeClosureScope cap c p st) st.nodes.length).parent =
      some p ∧
    st.nodes.length ∈ (getNode (createWholeClosureScope cap c p st) p).children ∧
    (∀ cd, cap = some cd →
      st.nodes.length + 1 < (createWholeClosureScope cap c p st).nodes.length ∧
      (getNode (createWholeClosureScope cap c p st) (st.nodes.length + 1)).kind =
        .captureListScope cd.id ∧
      st.nodes.length + 1 ∈
        (getNode (createWholeClosureScope cap c p st) st.nodes.length).children) := by
  cases cap with
  | none =>
    have heq : createWholeClosureScope none c p st =
        createClosureBodyScope c
          (if c.inLocValid = true then
            ((addChild p (.wholeClosureScope none c.cid) c.crange st).1,
             (addChild (addChild p (.wholeClosureScope none c.cid) c.crange st).1
               (.closureParametersScope c.cid) none
               (addChild p (.wholeClosureScope none c.cid) c.crange st).2).2)
           else
            ((addChild p (.wholeClosureScope none c.cid) c.crange st).1,
             (addChild p (.wholeClosureScope none c.cid) c.crange st).2)).1
          (if c.inLocValid = true then
            ((addChild p (.wholeClosureScope none c.cid) c.crange st).1,
             (addChild (addChild p (.wholeClosureScope none c.cid) c.crange st).1
               (.closureParametersScope c.cid) none
               (addChild p (.wholeClosureScope none c.cid) c.crange st).2).2)
           else
            ((addChild p (.wholeClosureScope none c.cid) c.crange st).1,
             (addChild p (.wholeClosureScope none c.cid) c.crange st).2)).2 := by
      rw [createWholeClosureScope]
      simp only [Option.map_none']
    have hlenA : (addChild p (.wholeClosureScope none c.cid)
        c.crange st).2.nodes.length = st.nodes.length + 1 := addChild_len ..
    have hkind0 : (getNode (addChild p (.wholeClosureScope none c.cid)
        c.crange st).2 st.nodes.length).kind = .wholeClosureScope none c.cid := by
      rw [getNode_addChild_new]
    have hpar0 : (getNode (addChild p (.wholeClosureScope none c.cid)
        c.crange st).2 st.nodes.length).parent = some p := by
      rw [getNode_addChild_new]
    have hmem0 : st.nodes.length ∈ (getNode (addChild p
        (.wholeClosureScope none c.cid) c.crange st).2 p).children := by
      rw [getNode_addChild_old p _ _ st p hp]
      simp
    rw [heq]
    by_cases hinl : c.inLocValid = true
    · rw [if_pos hinl]
      have hsok : SOK (addChild p (.wholeClosureScope none c.cid) c.crange st).2
          (createClosureBodyScope c
            (addChild p (.wholeClosureScope none c.cid) c.crange st).1
            (addChild (addChild p (.wholeClosureScope none c.cid) c.crange st).1
              (.closureParametersScope c.cid) none
              (addChild p (.wholeClosureScope none c.cid) c.crange st).2).2) :=
        SOK.trans (sok_addChild ..) (sok_createClosureBodyScope ..)
      obtain ⟨h1, h2, h3⟩ := sok_node_facts hsok (by omega) (by omega)
        hkind0 hpar0 hmem0
      have hlen2 := hsok.len_le
      have hfin := Nat.lt_of_lt_of_le (Nat.lt_of_lt_of_le
        (by omega : st.nodes.length < st.nodes.length + 1)
        (le_of_eq hlenA.symm)) hlen2
      exact ⟨hfin, h1, h2, h3, fun cd hcd => by cases hcd⟩
    · rw [if_neg hinl]
      have hsok : SOK (addChild p (.wholeClosureScope none c.cid) c.crange st).2
          (createClosureBodyScope c
            (addChild p (.wholeClosureScope none c.cid) c.crange st).1
            (addChild p (.wholeClosureScope none c.cid) c.crange st).2) :=
        sok_createClosureBodyScope ..
      obtain ⟨h1, h2, h3⟩ := sok_node_facts hsok (by omega) (by omega)
        hkind0 hpar0 hmem0
      have hlen2 := hsok.len_le
      have hfin := Nat.lt_of_lt_of_le (Nat.lt_of_lt_of_le
        (by omega : st.nodes.length < st.nodes.length + 1)
        (le_of_eq hlenA.symm)) hlen2
      exact ⟨hfin, h1, h2, h3, fun cd hcd => by cases hcd⟩
  | some cd0 =>
    have heq : createWholeClosureScope (some cd0) c p st =
        createClosureBodyScope c
          (if c.inLocValid = true then
            ((addChild p (.wholeClosureScope (some cd0.id) c.cid) c.crange st).1,
             (addChild (addChild p (.wholeClosureScope (some cd0.id) c.cid)
                 c.crange st).1
               (.closureParametersScope c.cid) none
               (createCaptureListScope cd0
                 (addChild p (.wholeClosureScope (some cd0.id) c.cid) c.crange st).1
                 (addChild p (.wholeClosureScope (some cd0.id) c.cid)
                   c.crange st).2)).2)
           else
            ((addChild p (.wholeClosureScope (some cd0.id) c.cid) c.crange st).1,
             createCaptureListScope cd0
               (addChild p (.wholeClosureScope (some cd0.id) c.cid) c.crange st).1
               (addChild p (.wholeClosureScope (some cd0.id) c.cid)
                 c.crange st).2)).1
          (if c.inLocValid = true then
            ((addChild p (.wholeClosureScope (some cd0.id) c.cid) c.crange st).1,
             (addChild (addChild p (.wholeClosureScope (some cd0.id) c.cid)
                 c.crange st).1
               (.closureParametersScope c.cid) none
               (createCaptureListScope cd0
                 (addChild p (.wholeClosureScope (some cd0.id) c.cid) c.crange st).1
                 (addChild p (.wholeClosureScope (some cd0.id) c.cid)
                   c.crange st).2)).2)
           else
            ((addChild p (.wholeClosureScope (some cd0.id) c.cid) c.crange st).1,
             createCaptureListScope cd0
               (addChild p (.wholeClosureScope (some cd0.id) c.cid) c.crange st).1
               (addChild p (.wholeClosureScope (some cd0.id) c.cid)
                 c.crange st).2)).2 := by
      rw [createWholeClosureScope]
      simp only [Option.map_some']
    have heq2 : createCaptureListScope cd0
        (addChild p (.wholeClosureScope (some cd0.id) c.cid) c.crange st).1
        (addChild p (.wholeClosureScope (some cd0.id) c.cid) c.crange st).2 =
        capInitsLoop cd0.captures
          (addChild
            (addChild p (.wholeClosureScope (some cd0.id) c.cid) c.crange st).1
            (.captureListScope cd0.id) none
            (addChild p (.wholeClosureScope (some cd0.id) c.cid) c.crange st).2).1
          (addChild
            (addChild p (.wholeClosureScope (some cd0.id) c.cid) c.crange st).1
            (.captureListScope cd0.id) none
            (addChild p (.wholeClosureScope (some cd0.id) c.cid) c.crange st).2).2 := by
      rw [createCaptureListScope]
    have hlenA : (addChild p (.wholeClosureScope (some cd0.id) c.cid)
        c.crange st).2.nodes.length = st.nodes.length + 1 := addChild_len ..
    have hlenB : (addChild
        (addChild p (.wholeClosureScope (some cd0.id) c.cid) c.crange st).1
        (.captureListScope cd0.id) none
        (addChild p (.wholeClosureScope (some cd0.id) c.cid)
          c.crange st).2).2.nodes.length = st.nodes.length + 2 := by
      rw [addChild_len, hlenA]
    have hkindA : (getNode (addChild p (.wholeClosureScope (some cd0.id) c.cid)
        c.crange st).2 st.nodes.length).kind =
        .wholeClosureScope (some cd0.id) c.cid := by
      rw [getNode_addChild_new]
    have hparA : (getNode (addChild p (.wholeClosureScope (some cd0.id) c.cid)
        c.crange st).2 st.nodes.length).parent = some p := by
      rw [getNode_addChild_new]
    have hmemA : st.nodes.length ∈ (getNode (addChild p
        (.wholeClosureScope (some cd0.id) c.cid) c.crange st).2 p).children := by
      rw [getNode_addChild_old p _ _ st p hp]
      simp
    have hcapNew := getNode_addChild_new
      (addChild p (.wholeClosureScope (some cd0.id) c.cid) c.crange st).1
      (.captureListScope cd0.id) none
      (addChild p (.wholeClosureScope (some cd0.id) c.cid) c.crange st).2
    rw [hlenA] at hcapNew
    have hwEqA : st.nodes.length =
        (addChild p (.wholeClosureScope (some cd0.id) c.cid) c.crange st).1 := rfl
    have hkindB : (getNode (addChild
        (addChild p (.wholeClosureScope (some cd0.id) c.cid) c.crange st).1
        (.captureListScope cd0.id) none
        (addChild p (.wholeClosureScope (some cd0.id) c.cid) c.crange st).2).2
        st.nodes.length).kind = .wholeClosureScope (some cd0.id) c.cid := by
      rw [getNode_addChild_old _ _ _ _ st.nodes.length (by omega),
        if_pos hwEqA]
      exact hkindA
    have hparB : (getNode (addChild
        (addChild p (.wholeClosureScope (some cd0.id) c.cid) c.crange st).1
        (.captureListScope cd0.id) none
        (addChild p (.wholeClosureScope (some cd0.id) c.cid) c.crange st).2).2
        st.nodes.length).parent = some p := by
      rw [getNode_addChild_old _ _ _ _ st.nodes.length (by omega),
        if_pos hwEqA]
      exact hparA
    have hmemB : st.nodes.length ∈ (getNode (addChild
        (addChild p (.wholeClosureScope (some cd0.id) c.cid) c.crange st).1
        (.captureListScope cd0.id) none
        (addChild p (.wholeClosureScope (some cd0.id) c.cid) c.crange st).2).2
        p).children := by
      rw [getNode_addChild_old _ _ _ _ p (by omega),
        if_neg (by omega)]
      exact hmemA
    have hcapMemB : st.nodes.length + 1 ∈ (getNode (addChild
        (addChild p (.wholeClosureScope (some cd0.id) c.cid) c.crange st).1
        (.captureListScope cd0.id) none
        (addChild p (.wholeClosureScope (some cd0.id) c.cid) c.crange st).2).2
        st.nodes.length).children := by
      rw [getNode_addChild_old _ _ _ _ st.nodes.length (by omega),
        if_pos hwEqA, getNode_addChild_new]
      simp [hlenA]
    have hcapKindB : (getNode (addChild
        (addChild p (.wholeClosureScope (some cd0.id) c.cid) c.crange st).1
        (.captureListScope cd0.id) none
        (addChild p (.wholeClosureScope (some cd0.id) c.cid) c.crange st).2).2
        (st.nodes.length + 1)).kind = .captureListScope cd0.id := by
      rw [hcapNew]
    rw [heq, heq2]
    by_cases hinl : c.inLocValid = true
    · rw [if_pos hinl]
      have hsok : SOK (addChild
          (addChild p (.wholeClosureScope (some cd0.id) c.cid) c.crange st).1
          (.captureListScope cd0.id) none
          (addChild p (.wholeClosureScope (some cd0.id) c.cid) c.crange st).2).2
          (createClosureBodyScope c
            (addChild p (.wholeClosureScope (some cd0.id) c.cid) c.crange st).1
            (addChild
              (addChild p (.wholeClosureScope (some cd0.id) c.cid) c.crange st).1
              (.closureParametersScope c.cid) none
              (capInitsLoop cd0.captures
                (addChild
                  (addChild p (.wholeClosureScope (some cd0.id) c.cid)
                    c.crange st).1
                  (.captureListScope cd0.id) none
                  (addChild p (.wholeClosureScope (some cd0.id) c.cid)
                    c.crange st).2).1
                (addChild
                  (addChild p (.wholeClosureScope (some cd0.id) c.cid)
                    c.crange st).1
                  (.captureListScope cd0.id) none
                  (addChild p (.wholeClosureScope (some cd0.id) c.cid)
                    c.crange st).2).2)).2) :=
        SOK.trans (sok_capInitsLoop ..)
          (SOK.trans (sok_addChild ..) (sok_createClosureBodyScope ..))
      obtain ⟨h1, h2, h3⟩ := sok_node_facts hsok (by omega) (by omega)
        hkindB hparB hmemB
      obtain ⟨h4, h5, h6⟩ := sok_node_facts hsok (by omega) (by omega)
        hcapKindB rfl hcapMemB
      have hlen2 := hsok.len_le
      have hfin := Nat.lt_of_lt_of_le (Nat.lt_of_lt_of_le
        (by omega : st.nodes.length < st.nodes.length + 2)
        (le_of_eq hlenB.symm)) hlen2
      have hfin2 := Nat.lt_of_lt_of_le (Nat.lt_of_lt_of_le
        (by omega : st.nodes.length + 1 < st.nodes.length + 2)
        (le_of_eq hlenB.symm)) hlen2
      exact ⟨hfin, h1, h2, h3,
        fun cd hcd => by
          injection hcd with hcd2
          subst hcd2
          exact ⟨hfin2, h4, h6⟩⟩
    · rw [if_neg hinl]
      have hsok : SOK (addChild
          (addChild p (.wholeClosureScope (some cd0.id) c.cid) c.crange st).1
          (.captureListScope cd0.id) none
          (addChild p (.wholeClosureScope (some cd0.id) c.cid) c.crange st).2).2
          (createClosureBodyScope c
            (addChild p (.wholeClosureScope (some cd0.id) c.cid) c.crange st).1
            (capInitsLoop cd0.captures
              (addChild
                (addChild p (.wholeClosureScope (some cd0.id) c.cid)
                  c.crange st).1
                (.captureListScope cd0.id) none
                (addChild p (.wholeClosureScope (some cd0.id) c.cid)
                  c.crange st).2).1
              (addChild
                (addChild p (.wholeClosureScope (some cd0.id) c.cid)
                  c.crange st).1
                (.captureListScope cd0.id) none
                (addChild p (.wholeClosureScope (some cd0.id) c.cid)
                  c.crange st).2).2)) :=
        SOK.trans (sok_capInitsLoop ..) (sok_createClosureBodyScope ..)
      obtain ⟨h1, h2, h3⟩ := sok_node_facts hsok (by omega) (by omega)
        hkindB hparB hmemB
      obtain ⟨h4, h5, h6⟩ := sok_node_facts hsok (by omega) (by omega)
        hcapKindB rfl hcapMemB
      have hlen2 := hsok.len_le
      have hfin := Nat.lt_of_lt_of_le (Nat.lt_of_lt_of_le
        (by omega : st.nodes.length < st.nodes.length + 2)
        (le_of_eq hlenB.symm)) hlen2
      have hfin2 := Nat.lt_of_lt_of_le (Nat.lt_of_lt_of_le
        (by omega : st.nodes.length + 1 < st.nodes.length + 2)
        (le_of_eq hlenB.symm)) hlen2
      exact ⟨hfin, h1, h2, h3,
        fun cd hcd => by
          injection hcd with hcd2
          subst hcd2
          exact ⟨hfin2, h4, h6⟩⟩

/-- C9: restricted closure sub-walk.  (1) Scoping an arbitrary
expression adds children for exactly the closures the restricted walk
reports.  (2) The walk reports exactly the spec-side top-level
closures: the closures of the expression not nested inside another
closure (it never enters a found closure's interior) and not hidden
behind a declaration, pattern, type-representation or parameter-list
boundary.  (3) Each reported closure not yet seen gets one fresh
`WholeClosureScope` child of the current scope, carrying its capture
list when present, with the fresh `CaptureListScope` as its child. -/
theorem C9_restricted_closure_sub_walk :
    (∀ (e : Expr) (p : Nat) (st : St),
      addChildrenForCapturesAndClosuresIn e p st =
        processClosures (forEachClosureIn e) p st) ∧
    (∀ (e : Expr) (fc : FoundClosure),
      fc ∈ forEachClosureIn e ↔ TopLevelClosureSpec e fc) ∧
    (∀ (cap : Option CapData) (c : ClosureInfo) (rest : List FoundClosure)
        (p : Nat) (st : St), p < st.nodes.length → c.cid ∉ st.dups →
      (getNode (processClosures ((cap, c) :: rest) p st) st.nodes.length).kind =
        .wholeClosureScope (cap.map (·.id)) c.cid ∧
      (getNode (processClosures ((cap, c) :: rest) p st)
        st.nodes.length).parent = some p ∧
      st.nodes.length ∈
        (getNode (processClosures ((cap, c) :: rest) p st) p).children ∧
      (∀ cd, cap = some cd →
        (getNode (processClosures ((cap, c) :: rest) p st)
          (st.nodes.length + 1)).kind = .captureListScope cd.id ∧
        st.nodes.length + 1 ∈
          (getNode (processClosures ((cap, c) :: rest) p st)
            st.nodes.length).children)) := by
  refine ⟨?_, ?_, ?_⟩
  · intro e p st
    rw [addChildrenForCapturesAndClosuresIn]
  · intro e fc
    exact mem_forEachClosureIn_iff e fc
  · intro cap c rest p st hp hni
    have hnodes : (isDuplicate c.cid true st).2.nodes = st.nodes :=
      isDuplicate_reg_nodes c.cid st
    have hlen : (isDuplicate c.cid true st).2.nodes.length =
        st.nodes.length := by rw [hnodes]
    have hp2 : p < (isDuplicate c.cid true st).2.nodes.length := by omega
    rw [processClosures_cons_new cap c rest p st hni]
    obtain ⟨hw1, hw2, hw3, hw4, hw5⟩ := createWholeClosureScope_spec cap c p
      (isDuplicate c.cid true st).2 hp2
    rw [hlen] at hw1 hw2 hw3 hw4 hw5
    have hsok : SOK
        (createWholeClosureScope cap c p (isDuplicate c.cid true st).2)
        (processClosures rest p
          (createWholeClosureScope cap c p (isDuplicate c.cid true st).2)) :=
      sok_processClosures ..
    have hplt : p < (createWholeClosureScope cap c p
        (isDuplicate c.cid true st).2).nodes.length := by omega
    refine ⟨?_, ?_, ?_, ?_⟩
    · rw [hsok.kind_eq _ hw1]
      exact hw2
    · rw [hsok.parent_eq _ hw1]
      exact hw3
    · exact hsok.mem_children hplt hw4
    · intro cd hcd
      obtain ⟨hc1, hc2, hc3⟩ := hw5 cd hcd
      exact ⟨by rw [hsok.kind_eq _ hc1]; exact hc2,
        hsok.mem_children hw1 hc3⟩

/-- Witness for C9 part (3): an unseen closure with a capture list,
scoped at the source-file scope of the initial state. -/
theorem C9_restricted_closure_sub_walk_witness :
    0 < initSt.nodes.length ∧ (4 : Nat) ∉ initSt.dups ∧
    (getNode (processClosures
      [(some (CapData.mk 9 []), ClosureInfo.mk 4 none false
        (Stmt.brace 6 none false []))] 0 initSt) 1).kind =
      .wholeClosureScope (some 9) 4 ∧
    (getNode (processClosures
      [(some (CapData.mk 9 []), ClosureInfo.mk 4 none false
        (Stmt.brace 6 none false []))] 0 initSt) 1).parent = some 0 ∧
    1 ∈ (getNode (processClosures
      [(some (CapData.mk 9 []), ClosureInfo.mk 4 none false
        (Stmt.brace 6 none false []))] 0 initSt) 0).children ∧
    (getNode (processClosures
      [(some (CapData.mk 9 []), ClosureInfo.mk 4 none false
        (Stmt.brace 6 none false []))] 0 initSt) 2).kind =
      .captureListScope 9 ∧
    2 ∈ (getNode (processClosures
      [(some (CapData.mk 9 []), ClosureInfo.mk 4 none false
        (Stmt.brace 6 none false []))] 0 initSt) 1).children := by
  have h := C9_restricted_closure_sub_walk.2.2 (some (CapData.mk 9 []))
    (ClosureInfo.mk 4 none false (Stmt.brace 6 none false [])) [] 0 initSt
    (by decide) (by decide)
  exact ⟨by decide, by decide, h.1, h.2.1, h.2.2.1,
    (h.2.2.2 _ rfl).1, (h.2.2.2 _ rfl).2⟩

/-- Witness for C3: a second encounter of identity 5 is silently
skipped, and a first encounter registers before scoping. -/
theorem C3_dedup_at_most_once_witness :
    isHandledSpecially (.decl (.otherDecl 5 none false)) = false ∧
    (5 : Nat) ∈ (St.mk [default] [5] [5] 0).dups ∧
    shouldThisNodeBeScopedWhenEncountered (.decl (.otherDecl 5 none false))
      (St.mk [default] [5] [5] 0) = (false, St.mk [default] [5] [5] 0) ∧
    (shouldThisNodeBeScopedWhenEncountered (.decl (.otherDecl 6 none false))
      initSt).1 = true ∧
    (6 : Nat) ∈ (shouldThisNodeBeScopedWhenEncountered
      (.decl (.otherDecl 6 none false)) initSt).2.dups := by
  refine ⟨by decide, by decide,
    C3_dedup_at_most_once.2.1 _ _ (by decide) (by decide), by decide,
    C3_dedup_at_most_once.2.2 _ _ (by decide)⟩

end ScopeTree
